import Mathlib

/-
  Verification of the two programs in this repository:
  CarRental.py (vehicle booking/rental tracker) and ilovepdf/ilovepdf.py
  (PDF operation tracker).  Every definition below is a shallow embedding
  of the corresponding Python class or method; definitions whose name ends
  in `Spec` instead transcribe the specification's wording, so that the
  code-derived definition can be compared against them.
-/

namespace CarRental

/- Embedding of class User (CarRental.py lines 2-13). -/
structure User where
  username : String
  location : String
deriving DecidableEq

/- Embedding of class Vehicle (CarRental.py lines 17-37).  The Python
constructor always initialises `vehicleisavailable = True`; the operations
below only ever construct vehicles with that field true. -/
structure Vehicle where
  vehicle_name : String
  plate_number : String
  vehicle_location : String
  vehicleisavailable : Bool
deriving DecidableEq

/- Booking lifecycle states; the Python source uses the string literals
"BOOKED", "RENTED", "COMPLETED", compared only for equality. -/
inductive BookingStatus where
  | BOOKED
  | RENTED
  | COMPLETED
deriving DecidableEq

/- Embedding of class Booking (CarRental.py lines 41-74).  The id is drawn
from the class-level counter `Booking.booking_counter`, modelled as a
field of the system state below. -/
structure Booking where
  booking_id : Nat
  username : String
  vehicle_name : String
  plate_number : String
  location : String
  status : BookingStatus
deriving DecidableEq

/- The combined state of one VehicleManager plus one VehicleBookRentManager
(CarRental.py lines 78-133) together with the booking-id counter.
`vehicle_loc_hashmap` is the dict location -> list of vehicles, modelled as
an insertion-ordered association list; `booking_records` is the dict
booking_id -> Booking, modelled as the insertion-ordered list of its
values (keys are the `booking_id` fields, unique for every state the
program constructs). -/
structure RentalState where
  vehicle_loc_hashmap : List (String × List Vehicle)
  booking_records : List Booking
  booking_counter : Nat
deriving DecidableEq

/- Fresh managers hold empty dicts; `Booking.booking_counter` starts at 1. -/
def initState : RentalState :=
  { vehicle_loc_hashmap := [], booking_records := [], booking_counter := 1 }

/- Dict update used by VehicleManager.addvehicle (line 101):
`setdefault(location, []).append(vehicle)` appends to the list stored under
the vehicle's location, creating the entry if missing. -/
def addvehicle_map (v : Vehicle) : List (String × List Vehicle) → List (String × List Vehicle)
  | [] => [(v.vehicle_location, [v])]
  | (k, vs) :: rest =>
    if k = v.vehicle_location then (k, vs ++ [v]) :: rest
    else (k, vs) :: addvehicle_map v rest

/- Embedding of VehicleManager.addvehicle (lines 91-102); the Python method
also returns True, which carries no information. -/
def addvehicle (st : RentalState) (v : Vehicle) : RentalState :=
  { st with vehicle_loc_hashmap := addvehicle_map v st.vehicle_loc_hashmap }

/- First-match lookup in the association list, as Python dict lookup. -/
def lookupLoc : List (String × List Vehicle) → String → Option (List Vehicle)
  | [], _ => none
  | (k, vs) :: rest, loc => if k = loc then some vs else lookupLoc rest loc

/- Embedding of VehicleManager.getVehicles (lines 104-114):
`dict.get(location, [])`. -/
def getVehicles (st : RentalState) (loc : String) : List Vehicle :=
  (lookupLoc st.vehicle_loc_hashmap loc).getD []

/- Replacing the list stored under a key; models the in-place mutation of
the list returned by getVehicles inside rentVehicle/returnVehicle. -/
def setLoc (loc : String) (vs' : List Vehicle) :
    List (String × List Vehicle) → List (String × List Vehicle)
  | [] => []
  | (k, vs) :: rest =>
    if k = loc then (k, vs') :: rest else (k, vs) :: setLoc loc vs' rest

/- Dict lookup `booking_records.get(booking_id)` (line 161/179). -/
def findBooking : List Booking → Nat → Option Booking
  | [], _ => none
  | b :: rest, bid => if b.booking_id = bid then some b else findBooking rest bid

/- The mutation `booking.status = s` of the record stored under `bid`;
`map` touches exactly the stored booking because ids are unique. -/
def setBookingStatus (records : List Booking) (bid : Nat) (s : BookingStatus) : List Booking :=
  records.map (fun b => if b.booking_id = bid then { b with status := s } else b)

/- The search loop of createBooking (lines 147-148): first vehicle whose
name matches and which is available. -/
def bookScan (vehicle_name : String) : List Vehicle → Option Vehicle
  | [] => none
  | v :: vs =>
    if v.vehicle_name = vehicle_name ∧ v.vehicleisavailable = true then some v
    else bookScan vehicle_name vs

/- Embedding of VehicleBookRentManager.createBooking (lines 135-152). -/
def createBooking (st : RentalState) (user : User) (vehicle_name : String) (location : String) :
    Option Nat × RentalState :=
  match bookScan vehicle_name (getVehicles st location) with
  | some v =>
    let booking : Booking :=
      { booking_id := st.booking_counter, username := user.username,
        vehicle_name := v.vehicle_name, plate_number := v.plate_number,
        location := v.vehicle_location, status := BookingStatus.BOOKED }
    (some booking.booking_id,
      { st with booking_records := st.booking_records ++ [booking],
                booking_counter := st.booking_counter + 1 })
  | none => (none, st)

/- The search loop of rentVehicle (lines 165-169): first vehicle whose
plate matches and which is available has its availability set to false. -/
def rentScan (plate : String) : List Vehicle → Option (List Vehicle)
  | [] => none
  | v :: vs =>
    if v.plate_number = plate ∧ v.vehicleisavailable = true then
      some ({ v with vehicleisavailable := false } :: vs)
    else
      (rentScan plate vs).map (fun vs' => v :: vs')

/- Embedding of VehicleBookRentManager.rentVehicle (lines 154-170). -/
def rentVehicle (st : RentalState) (booking_id : Nat) : Bool × RentalState :=
  match findBooking st.booking_records booking_id with
  | none => (false, st)
  | some booking =>
    if booking.status = BookingStatus.BOOKED then
      match rentScan booking.plate_number (getVehicles st booking.location) with
      | some vs' =>
        (true,
          { st with
              vehicle_loc_hashmap := setLoc booking.location vs' st.vehicle_loc_hashmap,
              booking_records :=
                setBookingStatus st.booking_records booking_id BookingStatus.RENTED })
      | none => (false, st)
    else (false, st)

/- The search loop of returnVehicle (lines 183-187): first vehicle whose
plate matches (no availability check) has its availability set to true. -/
def returnScan (plate : String) : List Vehicle → Option (List Vehicle)
  | [] => none
  | v :: vs =>
    if v.plate_number = plate then
      some ({ v with vehicleisavailable := true } :: vs)
    else
      (returnScan plate vs).map (fun vs' => v :: vs')

/- Embedding of VehicleBookRentManager.returnVehicle (lines 172-188). -/
def returnVehicle (st : RentalState) (booking_id : Nat) : Bool × RentalState :=
  match findBooking st.booking_records booking_id with
  | none => (false, st)
  | some booking =>
    if booking.status = BookingStatus.RENTED then
      match returnScan booking.plate_number (getVehicles st booking.location) with
      | some vs' =>
        (true,
          { st with
              vehicle_loc_hashmap := setLoc booking.location vs' st.vehicle_loc_hashmap,
              booking_records :=
                setBookingStatus st.booking_records booking_id BookingStatus.COMPLETED })
      | none => (false, st)
    else (false, st)

/- The four state-changing entry points of the vehicle system.  `addOp`
carries the three constructor arguments of Vehicle; the constructor fixes
availability to true. -/
inductive RentalOp where
  | addOp (vehicle_name plate_number vehicle_location : String)
  | bookOp (user : User) (vehicle_name location : String)
  | rentOp (booking_id : Nat)
  | retOp (booking_id : Nat)
deriving DecidableEq

def applyOp (st : RentalState) : RentalOp → RentalState
  | RentalOp.addOp n p l => addvehicle st { vehicle_name := n, plate_number := p, vehicle_location := l, vehicleisavailable := true }
  | RentalOp.bookOp u n l => (createBooking st u n l).2
  | RentalOp.rentOp bid => (rentVehicle st bid).2
  | RentalOp.retOp bid => (returnVehicle st bid).2

def runRental (ops : List RentalOp) : RentalState :=
  ops.foldl applyOp initState

/- A state of the vehicle system reachable by some call sequence starting
from the empty system. -/
inductive Reach : RentalState → Prop
  | init : Reach initState
  | step (st : RentalState) (op : RentalOp) : Reach st → Reach (applyOp st op)

/- All vehicles currently stored, in storage order. -/
def allVehicles (st : RentalState) : List Vehicle :=
  (st.vehicle_loc_hashmap.map Prod.snd).flatten

/- Number of stored bookings that reference the given plate number with
status RENTED. -/
def rentedCount (st : RentalState) (plate : String) : Nat :=
  st.booking_records.countP
    (fun b => decide (b.plate_number = plate ∧ b.status = BookingStatus.RENTED))

/- An op is plate-fresh when any vehicle it adds carries a plate number not
yet present in the system (plate numbers are the identity keys of
vehicles). -/
def GoodOp (st : RentalState) : RentalOp → Prop
  | RentalOp.addOp _ p _ => p ∉ (allVehicles st).map Vehicle.plate_number
  | _ => True

/- Reachability restricted to plate-fresh vehicle additions. -/
inductive ReachU : RentalState → Prop
  | init : ReachU initState
  | step (st : RentalState) (op : RentalOp) : ReachU st → GoodOp st op → ReachU (applyOp st op)

/- States in which location keys are unique (as dict keys are) and plate
numbers identify vehicles uniquely, as the specification's data model
assumes. -/
def PlatesUnique (st : RentalState) : Prop :=
  (st.vehicle_loc_hashmap.map Prod.fst).Nodup ∧
    ((allVehicles st).map Vehicle.plate_number).Nodup

/- Spec wording for the createBooking search: the first vehicle of the
location's list whose name matches and whose availability is true, phrased
through filtering rather than through the source's scanning loop. -/
def firstAvailableMatch (vehicle_name : String) (vs : List Vehicle) : Option Vehicle :=
  (vs.filter (fun v => decide (v.vehicle_name = vehicle_name ∧ v.vehicleisavailable = true))).head?

/- Spec wording for locating a vehicle by plate number in a location's
list. -/
def findByPlate (plate : String) (vs : List Vehicle) : Option Vehicle :=
  (vs.filter (fun v => decide (v.plate_number = plate))).head?

/- Setting the availability flag of every vehicle of a list that carries
the given plate number (of the unique one, when plates are unique). -/
def setAvailOnPlate (plate : String) (a : Bool) (vs : List Vehicle) : List Vehicle :=
  vs.map (fun v => if v.plate_number = plate then { v with vehicleisavailable := a } else v)

/- Spec wording for setting the availability flag of the vehicle carrying
the given plate at the given location. -/
def setPlateAvailability (st : RentalState) (loc plate : String) (a : Bool) : RentalState :=
  { st with
      vehicle_loc_hashmap := st.vehicle_loc_hashmap.map (fun e =>
        if e.1 = loc then (e.1, setAvailOnPlate plate a e.2) else e) }

/- Modelled from the spec sentence for createBooking: scan the location's
vehicle list for the first vehicle matching name and availability; if
found construct a BOOKED booking, store it by id and return the id,
otherwise return the not-found marker with no side effect. -/
def createBookingSpec (st : RentalState) (user : User) (vehicle_name : String)
    (location : String) : Option Nat × RentalState :=
  match firstAvailableMatch vehicle_name (getVehicles st location) with
  | some v =>
    (some st.booking_counter,
      { st with
          booking_records := st.booking_records ++
            [{ booking_id := st.booking_counter, username := user.username,
               vehicle_name := v.vehicle_name, plate_number := v.plate_number,
               location := v.vehicle_location, status := BookingStatus.BOOKED }],
          booking_counter := st.booking_counter + 1 })
  | none => (none, st)

/- Modelled from the spec sentence for rent: fail if the booking is absent
or not BOOKED; otherwise locate the vehicle with the booking's plate in
the booking's location, require its availability, set it false, set the
booking RENTED, and report success. -/
def rentVehicleSpec (st : RentalState) (booking_id : Nat) : Bool × RentalState :=
  match findBooking st.booking_records booking_id with
  | none => (false, st)
  | some b =>
    if b.status = BookingStatus.BOOKED then
      match findByPlate b.plate_number (getVehicles st b.location) with
      | some v =>
        if v.vehicleisavailable = true then
          (true,
            { setPlateAvailability st b.location b.plate_number false with
                booking_records :=
                  setBookingStatus st.booking_records booking_id BookingStatus.RENTED })
        else (false, st)
      | none => (false, st)
    else (false, st)

/- Modelled from the spec sentence for returnVehicle: fail if the booking
is absent or not RENTED; otherwise locate the vehicle with the booking's
plate in the booking's location (no availability precondition), set its
availability true and complete the booking. -/
def returnVehicleSpec (st : RentalState) (booking_id : Nat) : Bool × RentalState :=
  match findBooking st.booking_records booking_id with
  | none => (false, st)
  | some b =>
    if b.status = BookingStatus.RENTED then
      match findByPlate b.plate_number (getVehicles st b.location) with
      | some _ =>
        (true,
          { setPlateAvailability st b.location b.plate_number true with
              booking_records :=
                setBookingStatus st.booking_records booking_id BookingStatus.COMPLETED })
      | none => (false, st)
    else (false, st)

end CarRental

namespace ILovePdf

/- Embedding of enum OperationType (ilovepdf.py lines 9-16). -/
inductive OperationType where
  | MERGE
  | COMPRESS
  | WATERMARK
deriving DecidableEq

/- Embedding of enum OperationStatus (lines 19-26). -/
inductive OperationStatus where
  | PENDING
  | COMPLETED
  | FAILED
deriving DecidableEq

/- Embedding of class PDFDocument (lines 42-57), parameterised by the type
of the opaque page tokens.  The uuid-generated `id` field is random data
never consulted by any operation and is omitted. -/
structure PDFDocument (α : Type) where
  name : String
  pages : List α
deriving DecidableEq

/- Embedding of class Operation (lines 60-86).  The uuid id is modelled as
a number drawn from the fresh-id counter of the manager state below (the
only property the program relies on is freshness). -/
structure Operation (α : Type) where
  id : Nat
  user : String
  op_type : OperationType
  input_files : List (PDFDocument α)
  output_file : Option (PDFDocument α)
  status : OperationStatus
deriving DecidableEq

/- Operation.__init__ (lines 71-77), given a fresh id. -/
def Operation.new (user : String) (op_type : OperationType)
    (input_files : List (PDFDocument α)) (id : Nat) : Operation α :=
  { id := id, user := user, op_type := op_type, input_files := input_files,
    output_file := none, status := OperationStatus.PENDING }

/- Operation.mark_completed (lines 79-82). -/
def Operation.mark_completed (op : Operation α) (output : PDFDocument α) : Operation α :=
  { op with output_file := some output, status := OperationStatus.COMPLETED }

/- Operation.mark_failed (lines 84-86). -/
def Operation.mark_failed (op : Operation α) : Operation α :=
  { op with status := OperationStatus.FAILED }

/- Embedding of class OperationRepository (lines 93-110): an in-memory
dict id -> Operation, modelled as the insertion-ordered list of its
values keyed by the `id` field. -/
def OperationRepository.save (ops : List (Operation α)) (op : Operation α) :
    List (Operation α) :=
  if ops.any (fun o => o.id == op.id) then
    ops.map (fun o => if o.id = op.id then op else o)
  else ops ++ [op]

def OperationRepository.get (ops : List (Operation α)) (operation_id : Nat) :
    Option (Operation α) :=
  ops.find? (fun o => o.id == operation_id)

/- Embedding of class PDFService (lines 117-142). -/
def PDFService.merge (pdf1 pdf2 : PDFDocument α) : PDFDocument α :=
  { name := "merged.pdf", pages := pdf1.pages ++ pdf2.pages }

def PDFService.compress (pdf : PDFDocument α) : PDFDocument α :=
  pdf

def PDFService.add_watermark (pdf : PDFDocument α) (page_range : Option (Nat × Nat)) :
    PDFDocument α :=
  pdf

/- Embedding of class UserPdfManager (lines 199-276) for its single user.
`user_operations` is the per-user id list kept by _record_operation;
`next_id` supplies fresh operation ids (modelling uuid4 freshness). -/
structure UserPdfManager (α : Type) where
  user : String
  operation_repo : List (Operation α)
  user_operations : List Nat
  next_id : Nat
deriving DecidableEq

def initManager (username : String) : UserPdfManager α :=
  { user := username, operation_repo := [], user_operations := [], next_id := 0 }

/- UserPdfManager._record_operation (lines 215-220). -/
def record_operation (m : UserPdfManager α) (op : Operation α) : UserPdfManager α :=
  { m with
      operation_repo := OperationRepository.save m.operation_repo op,
      user_operations := m.user_operations ++ [op.id] }

/- The shape shared by merge_pdf, compress_pdf and add_watermark (lines
222-266): create a PENDING operation, persist it, run the service call in
a try/except boundary, mark the operation completed with the output or
failed on a raised fault, and return the id either way.  `service_result`
stands for the outcome of the service call inside the try block: `ok` for
a normal return, `error` for a raised exception. -/
def runOperation (m : UserPdfManager α) (op_type : OperationType)
    (input_files : List (PDFDocument α)) (service_result : Except Unit (PDFDocument α)) :
    Nat × UserPdfManager α :=
  let op := Operation.new m.user op_type input_files m.next_id
  let m1 := record_operation { m with next_id := m.next_id + 1 } op
  match service_result with
  | Except.ok result =>
    (op.id,
      { m1 with operation_repo :=
          OperationRepository.save m1.operation_repo (op.mark_completed result) })
  | Except.error _ =>
    (op.id,
      { m1 with operation_repo :=
          OperationRepository.save m1.operation_repo op.mark_failed })

/- UserPdfManager.merge_pdf (lines 222-236); the concrete service call
always returns normally. -/
def merge_pdf (m : UserPdfManager α) (pdf1 pdf2 : PDFDocument α) : Nat × UserPdfManager α :=
  runOperation m OperationType.MERGE [pdf1, pdf2] (Except.ok (PDFService.merge pdf1 pdf2))

/- UserPdfManager.compress_pdf (lines 238-251). -/
def compress_pdf (m : UserPdfManager α) (pdf : PDFDocument α) : Nat × UserPdfManager α :=
  runOperation m OperationType.COMPRESS [pdf] (Except.ok (PDFService.compress pdf))

/- UserPdfManager.add_watermark (lines 253-266). -/
def add_watermark (m : UserPdfManager α) (pdf : PDFDocument α)
    (page_range : Option (Nat × Nat)) : Nat × UserPdfManager α :=
  runOperation m OperationType.WATERMARK [pdf]
    (Except.ok (PDFService.add_watermark pdf page_range))

/- UserPdfManager.download_result (lines 268-276). -/
def download_result (m : UserPdfManager α) (operation_id : Nat) : Option (PDFDocument α) :=
  match OperationRepository.get m.operation_repo operation_id with
  | some op => if op.status = OperationStatus.COMPLETED then op.output_file else none
  | none => none

/- The public call sequence of the PDF system. -/
inductive PdfOp (α : Type) where
  | mergeOp (pdf1 pdf2 : PDFDocument α)
  | compressOp (pdf : PDFDocument α)
  | watermarkOp (pdf : PDFDocument α) (page_range : Option (Nat × Nat))
  | downloadOp (operation_id : Nat)
deriving DecidableEq

/- download_result reads but never writes the state. -/
def applyPdfOp (m : UserPdfManager α) : PdfOp α → UserPdfManager α
  | PdfOp.mergeOp p1 p2 => (merge_pdf m p1 p2).2
  | PdfOp.compressOp p => (compress_pdf m p).2
  | PdfOp.watermarkOp p r => (add_watermark m p r).2
  | PdfOp.downloadOp _ => m

def runPdf (username : String) (ops : List (PdfOp α)) : UserPdfManager α :=
  ops.foldl applyPdfOp (initManager username)

end ILovePdf

namespace ILovePdf

/- Concrete documents of the demo block (lines 300-301), used as witness
inputs. -/
def pdf1 : PDFDocument Nat := { name := "file1.pdf", pages := [1, 2, 3] }

def pdf2 : PDFDocument Nat := { name := "file2.pdf", pages := [4, 5] }

def demoManager : UserPdfManager Nat := (merge_pdf (initManager "alex") pdf1 pdf2).2

def demoOpC : Operation Nat :=
  { id := 0, user := "alex", op_type := OperationType.MERGE,
    input_files := [pdf1, pdf2],
    output_file := some { name := "merged.pdf", pages := [1, 2, 3, 4, 5] },
    status := OperationStatus.COMPLETED }

theorem mem_of_mem_save {α : Type} {ops : List (Operation α)} {op x : Operation α}
    (h : x ∈ OperationRepository.save ops op) : (x ∈ ops ∧ x.id ≠ op.id) ∨ x = op := by
  unfold OperationRepository.save at h
  by_cases hany : ops.any (fun o => o.id == op.id) = true
  · rw [if_pos hany] at h
    obtain ⟨y, hy, hxy⟩ := List.mem_map.mp h
    by_cases hid : y.id = op.id
    · right
      rw [if_pos hid] at hxy
      exact hxy.symm
    · left
      rw [if_neg hid] at hxy
      subst hxy
      exact ⟨hy, hid⟩
  · rw [if_neg hany] at h
    rcases List.mem_append.mp h with h1 | h1
    · left
      refine ⟨h1, fun hid => hany ?_⟩
      exact List.any_eq_true.mpr ⟨x, h1, by simp [hid]⟩
    · right
      simpa using h1

theorem find?_map_update_of_exists {α : Type} {ops : List (Operation α)} {op : Operation α}
    (h : ∃ o ∈ ops, o.id = op.id) :
    (ops.map (fun o => if o.id = op.id then op else o)).find?
      (fun o => o.id == op.id) = some op := by
  induction ops with
  | nil => simp at h
  | cons a rest ih =>
    by_cases ha : a.id = op.id
    · simp [List.find?, ha]
    · obtain ⟨o, ho, hoid⟩ := h
      rcases List.mem_cons.mp ho with rfl | ho'
      · exact absurd hoid ha
      · have hfa : (a.id == op.id) = false := by simpa using ha
        simp only [List.map_cons, List.find?_cons, if_neg ha, hfa]
        exact ih ⟨o, ho', hoid⟩

theorem find?_append_of_none {α : Type} {l1 l2 : List (Operation α)}
    {p : Operation α → Bool} (h : ∀ o ∈ l1, p o = false) :
    (l1 ++ l2).find? p = l2.find? p := by
  induction l1 with
  | nil => simp
  | cons a rest ih =>
    simp only [List.cons_append, List.find?_cons, h a (List.mem_cons_self a rest)]
    exact ih (fun o ho => h o (List.mem_cons_of_mem a ho))

theorem get_save_self {α : Type} (ops : List (Operation α)) (op : Operation α) :
    OperationRepository.get (OperationRepository.save ops op) op.id = some op := by
  unfold OperationRepository.get OperationRepository.save
  by_cases hany : ops.any (fun o => o.id == op.id) = true
  · rw [if_pos hany]
    obtain ⟨o, ho, hoid⟩ := List.any_eq_true.mp hany
    exact find?_map_update_of_exists ⟨o, ho, by simpa using hoid⟩
  · rw [if_neg hany]
    have hall : ∀ o ∈ ops, (o.id == op.id) = false := by
      intro o ho
      by_contra hc
      exact hany (List.any_eq_true.mpr ⟨o, ho, by simpa using hc⟩)
    rw [find?_append_of_none hall]
    simp [List.find?]

/-- C6: merge returns a document whose page sequence is the concatenation
of the two inputs' page sequences in order, while compress and
add_watermark return their input document unchanged. -/
theorem c6_pdf_service_pure {α : Type} (a b d : PDFDocument α) (r : Option (Nat × Nat)) :
    (PDFService.merge a b).pages = a.pages ++ b.pages ∧
      PDFService.compress d = d ∧
      PDFService.add_watermark d r = d :=
  ⟨rfl, rfl, rfl⟩

/-- C7: runOperation creates a PENDING operation, persists it, and inside
the failure-isolating boundary marks it COMPLETED with the output on a
normal service return and FAILED (with no output recorded) on a raised
fault; the operation id is returned and tracked in either case, so no
fault escapes the call. -/
theorem c7_runOperation_boundary {α : Type} (m : UserPdfManager α)
    (op_type : OperationType) (input_files : List (PDFDocument α))
    (service_result : Except Unit (PDFDocument α)) :
    (runOperation m op_type input_files service_result).1 = m.next_id ∧
      (Operation.new m.user op_type input_files m.next_id).status = OperationStatus.PENDING ∧
      OperationRepository.get
        (record_operation { m with next_id := m.next_id + 1 }
          (Operation.new m.user op_type input_files m.next_id)).operation_repo m.next_id =
        some (Operation.new m.user op_type input_files m.next_id) ∧
      m.next_id ∈ (runOperation m op_type input_files service_result).2.user_operations ∧
      OperationRepository.get
        (runOperation m op_type input_files service_result).2.operation_repo m.next_id =
        some (match service_result with
          | Except.ok output =>
            (Operation.new m.user op_type input_files m.next_id).mark_completed output
          | Except.error _ =>
            (Operation.new m.user op_type input_files m.next_id).mark_failed) ∧
      (Operation.new m.user op_type input_files m.next_id).mark_failed.output_file = none := by
  refine ⟨?_, rfl, ?_, ?_, ?_, rfl⟩
  · cases service_result <;> rfl
  · exact get_save_self m.operation_repo (Operation.new m.user op_type input_files m.next_id)
  · cases service_result <;>
      simp [runOperation, record_operation, Operation.new]
  · cases service_result with
    | ok output =>
      exact get_save_self _ ((Operation.new m.user op_type input_files m.next_id).mark_completed output)
    | error e =>
      exact get_save_self _ (Operation.new m.user op_type input_files m.next_id).mark_failed

/-- C8: download_result returns the operation's output_file exactly when
an operation with the requested id exists with status COMPLETED, and
returns the same not-available marker none both for an existing operation
in status PENDING or FAILED and for an unknown id. -/
theorem c8_download_result_gate {α : Type} (m : UserPdfManager α) (operation_id : Nat) :
    (∀ op, OperationRepository.get m.operation_repo operation_id = some op →
      (op.status = OperationStatus.COMPLETED →
        download_result m operation_id = op.output_file) ∧
      (op.status ≠ OperationStatus.COMPLETED →
        download_result m operation_id = none)) ∧
    (OperationRepository.get m.operation_repo operation_id = none →
      download_result m operation_id = none) := by
  constructor
  · intro op hop
    constructor
    · intro hst
      simp [download_result, hop, hst]
    · intro hst
      simp [download_result, hop, hst]
  · intro hnone
    simp [download_result, hnone]

theorem c8_download_result_gate_witness :
    download_result demoManager 0 = some { name := "merged.pdf", pages := [1, 2, 3, 4, 5] } := by
  have h := ((c8_download_result_gate demoManager 0).1 demoOpC (by decide)).1 (by decide)
  rw [h]
  decide

/- The strengthened invariant used for C9/C10: the concrete service calls
never raise, so every stored operation is COMPLETED with an output. -/
def RepoCompleted {α : Type} (ops : List (Operation α)) : Prop :=
  ∀ op ∈ ops, op.status = OperationStatus.COMPLETED ∧ op.output_file.isSome = true

theorem repoCompleted_runOperation_ok {α : Type} {m : UserPdfManager α}
    (h : RepoCompleted m.operation_repo) (op_type : OperationType)
    (input_files : List (PDFDocument α)) (output : PDFDocument α) :
    RepoCompleted (runOperation m op_type input_files (Except.ok output)).2.operation_repo := by
  intro op hop
  simp only [runOperation] at hop
  rcases mem_of_mem_save hop with ⟨hop1, hid1⟩ | rfl
  · simp only [record_operation] at hop1
    rcases mem_of_mem_save hop1 with ⟨hop2, _⟩ | rfl
    · exact h op hop2
    · exact absurd rfl hid1
  · exact ⟨rfl, rfl⟩

theorem repoCompleted_applyPdfOp {α : Type} {m : UserPdfManager α}
    (h : RepoCompleted m.operation_repo) (o : PdfOp α) :
    RepoCompleted (applyPdfOp m o).operation_repo := by
  cases o with
  | mergeOp p1 p2 => exact repoCompleted_runOperation_ok h _ _ _
  | compressOp p => exact repoCompleted_runOperation_ok h _ _ _
  | watermarkOp p r => exact repoCompleted_runOperation_ok h _ _ _
  | downloadOp oid => exact h

theorem repoCompleted_foldl {α : Type} (ops : List (PdfOp α)) :
    ∀ m : UserPdfManager α, RepoCompleted m.operation_repo →
      RepoCompleted (ops.foldl applyPdfOp m).operation_repo := by
  induction ops with
  | nil => intro m h; exact h
  | cons o rest ih =>
    intro m h
    exact ih (applyPdfOp m o) (repoCompleted_applyPdfOp h o)

/-- C9: in every state reachable by a sequence of merge_pdf, compress_pdf,
add_watermark and download_result calls, every stored operation has
output_file set iff its status is COMPLETED; PENDING or FAILED operations
carry no output. -/
theorem c9_output_iff_completed {α : Type} (username : String) (ops : List (PdfOp α))
    (op : Operation α) (hmem : op ∈ (runPdf username ops).operation_repo) :
    (op.output_file.isSome = true ↔ op.status = OperationStatus.COMPLETED) ∧
      ((op.status = OperationStatus.PENDING ∨ op.status = OperationStatus.FAILED) →
        op.output_file = none) := by
  have h : RepoCompleted (runPdf username ops).operation_repo := by
    unfold runPdf
    exact repoCompleted_foldl ops (initManager username) (by intro x hx; simp [initManager] at hx)
  obtain ⟨hst, hout⟩ := h op hmem
  refine ⟨⟨fun _ => hst, fun _ => hout⟩, fun hbad => ?_⟩
  rcases hbad with hbad | hbad <;> rw [hst] at hbad <;> exact absurd hbad (by simp)

theorem c9_output_iff_completed_witness :
    demoOpC.output_file.isSome = true ↔ demoOpC.status = OperationStatus.COMPLETED :=
  (c9_output_iff_completed "alex" [PdfOp.mergeOp pdf1 pdf2] demoOpC (by decide)).1

/-- C10: after merge_pdf, compress_pdf or add_watermark returns, the
operation stored under the returned id exists with a terminal status
(COMPLETED or FAILED), never PENDING; in every reachable state the
repository holds no PENDING operation, and download_result never returns
the output of a PENDING operation. -/
theorem c10_terminal_after_call {α : Type} :
    (∀ (m : UserPdfManager α) (p1 p2 : PDFDocument α), ∃ op,
      OperationRepository.get (merge_pdf m p1 p2).2.operation_repo (merge_pdf m p1 p2).1 =
        some op ∧
      (op.status = OperationStatus.COMPLETED ∨ op.status = OperationStatus.FAILED) ∧
      op.status ≠ OperationStatus.PENDING) ∧
    (∀ (m : UserPdfManager α) (p : PDFDocument α), ∃ op,
      OperationRepository.get (compress_pdf m p).2.operation_repo (compress_pdf m p).1 =
        some op ∧
      (op.status = OperationStatus.COMPLETED ∨ op.status = OperationStatus.FAILED) ∧
      op.status ≠ OperationStatus.PENDING) ∧
    (∀ (m : UserPdfManager α) (p : PDFDocument α) (r : Option (Nat × Nat)), ∃ op,
      OperationRepository.get (add_watermark m p r).2.operation_repo (add_watermark m p r).1 =
        some op ∧
      (op.status = OperationStatus.COMPLETED ∨ op.status = OperationStatus.FAILED) ∧
      op.status ≠ OperationStatus.PENDING) ∧
    (∀ (username : String) (ops : List (PdfOp α)) (op : Operation α),
      op ∈ (runPdf username ops).operation_repo → op.status ≠ OperationStatus.PENDING) ∧
    (∀ (m : UserPdfManager α) (operation_id : Nat) (op : Operation α),
      OperationRepository.get m.operation_repo operation_id = some op →
      op.status = OperationStatus.PENDING → download_result m operation_id = none) := by
  refine ⟨?_, ?_, ?_, ?_, ?_⟩
  · intro m p1 p2
    refine ⟨(Operation.new m.user OperationType.MERGE [p1, p2] m.next_id).mark_completed
      (PDFService.merge p1 p2), ?_, Or.inl rfl, fun hc => OperationStatus.noConfusion hc⟩
    exact get_save_self _ _
  · intro m p
    refine ⟨(Operation.new m.user OperationType.COMPRESS [p] m.next_id).mark_completed
      (PDFService.compress p), ?_, Or.inl rfl, fun hc => OperationStatus.noConfusion hc⟩
    exact get_save_self _ _
  · intro m p r
    refine ⟨(Operation.new m.user OperationType.WATERMARK [p] m.next_id).mark_completed
      (PDFService.add_watermark p r), ?_, Or.inl rfl, fun hc => OperationStatus.noConfusion hc⟩
    exact get_save_self _ _
  · intro username ops op hmem
    have h : RepoCompleted (runPdf username ops).operation_repo := by
      unfold runPdf
      exact repoCompleted_foldl ops (initManager username) (by intro x hx; simp [initManager] at hx)
    rw [(h op hmem).1]
    simp
  · intro m operation_id op hop hst
    simp [download_result, hop, hst]

theorem c10_terminal_after_call_witness :
    demoOpC.status ≠ OperationStatus.PENDING :=
  (c10_terminal_after_call (α := Nat)).2.2.2.1 "alex" [PdfOp.mergeOp pdf1 pdf2] demoOpC (by decide)

end ILovePdf

namespace CarRental

theorem map_id_of_eq {β : Type} {f : β → β} :
    ∀ {l : List β}, (∀ x ∈ l, f x = x) → l.map f = l
  | [], _ => rfl
  | x :: xs, h => by
    rw [List.map_cons, h x (List.mem_cons_self _ _),
      map_id_of_eq (fun y hy => h y (List.mem_cons_of_mem _ hy))]

theorem bookScan_some {n : String} {vs : List Vehicle} {v : Vehicle}
    (h : bookScan n vs = some v) :
    v ∈ vs ∧ v.vehicle_name = n ∧ v.vehicleisavailable = true := by
  induction vs with
  | nil => simp [bookScan] at h
  | cons w ws ih =>
    by_cases hw : w.vehicle_name = n ∧ w.vehicleisavailable = true
    · rw [bookScan, if_pos hw] at h
      cases h
      exact ⟨List.mem_cons_self _ _, hw⟩
    · rw [bookScan, if_neg hw] at h
      obtain ⟨h1, h2⟩ := ih h
      exact ⟨List.mem_cons_of_mem _ h1, h2⟩

theorem bookScan_eq_firstAvailableMatch (n : String) (vs : List Vehicle) :
    bookScan n vs = firstAvailableMatch n vs := by
  induction vs with
  | nil => rfl
  | cons w ws ih =>
    by_cases hw : w.vehicle_name = n ∧ w.vehicleisavailable = true
    · rw [bookScan, if_pos hw]
      simp [firstAvailableMatch, List.filter_cons, hw]
    · rw [bookScan, if_neg hw, ih]
      simp [firstAvailableMatch, List.filter_cons, hw]

theorem bookScan_isSome_of_mem {n : String} {vs : List Vehicle} {v : Vehicle}
    (hv : v ∈ vs) (hn : v.vehicle_name = n) (ha : v.vehicleisavailable = true) :
    ∃ w, bookScan n vs = some w := by
  induction vs with
  | nil => simp at hv
  | cons w ws ih =>
    by_cases hw : w.vehicle_name = n ∧ w.vehicleisavailable = true
    · exact ⟨w, by rw [bookScan, if_pos hw]⟩
    · rcases List.mem_cons.mp hv with rfl | hv'
      · exact absurd ⟨hn, ha⟩ hw
      · obtain ⟨u, hu⟩ := ih hv'
        exact ⟨u, by rw [bookScan, if_neg hw]; exact hu⟩

theorem findByPlate_cons (p : String) (v : Vehicle) (vs : List Vehicle) :
    findByPlate p (v :: vs) = if v.plate_number = p then some v else findByPlate p vs := by
  by_cases hp : v.plate_number = p
  · simp [findByPlate, List.filter_cons, hp]
  · simp [findByPlate, List.filter_cons, hp]

theorem findByPlate_some {p : String} {vs : List Vehicle} {v : Vehicle}
    (h : findByPlate p vs = some v) : v ∈ vs ∧ v.plate_number = p := by
  induction vs with
  | nil => simp [findByPlate] at h
  | cons w ws ih =>
    rw [findByPlate_cons] at h
    by_cases hw : w.plate_number = p
    · rw [if_pos hw] at h
      cases h
      exact ⟨List.mem_cons_self _ _, hw⟩
    · rw [if_neg hw] at h
      obtain ⟨h1, h2⟩ := ih h
      exact ⟨List.mem_cons_of_mem _ h1, h2⟩

theorem findByPlate_none_iff {p : String} {vs : List Vehicle} :
    findByPlate p vs = none ↔ ∀ v ∈ vs, v.plate_number ≠ p := by
  induction vs with
  | nil => simp [findByPlate]
  | cons w ws ih =>
    rw [findByPlate_cons]
    by_cases hw : w.plate_number = p
    · simp [hw]
    · simp [hw, ih]

theorem findByPlate_isSome_of_mem {p : String} {vs : List Vehicle} {v : Vehicle}
    (hv : v ∈ vs) (hp : v.plate_number = p) : ∃ w, findByPlate p vs = some w := by
  cases hfb : findByPlate p vs with
  | none => exact absurd hp (findByPlate_none_iff.mp hfb v hv)
  | some w => exact ⟨w, rfl⟩

theorem setAvailOnPlate_of_no_plate {p : String} {a : Bool} {vs : List Vehicle}
    (h : ∀ v ∈ vs, v.plate_number ≠ p) : setAvailOnPlate p a vs = vs := by
  induction vs with
  | nil => rfl
  | cons w ws ih =>
    simp only [setAvailOnPlate, List.map_cons]
    rw [if_neg (h w (List.mem_cons_self _ _))]
    have := ih (fun v hv => h v (List.mem_cons_of_mem _ hv))
    simp only [setAvailOnPlate] at this
    rw [this]

theorem setAvailOnPlate_plates (p : String) (a : Bool) (vs : List Vehicle) :
    (setAvailOnPlate p a vs).map Vehicle.plate_number = vs.map Vehicle.plate_number := by
  induction vs with
  | nil => rfl
  | cons w ws ih =>
    simp only [setAvailOnPlate, List.map_cons] at ih ⊢
    rw [ih]
    by_cases hw : w.plate_number = p
    · rw [if_pos hw]
    · rw [if_neg hw]

theorem rentScan_none_of_no_plate {p : String} {vs : List Vehicle}
    (h : ∀ v ∈ vs, v.plate_number ≠ p) : rentScan p vs = none := by
  induction vs with
  | nil => rfl
  | cons w ws ih =>
    rw [rentScan, if_neg (fun hc => h w (List.mem_cons_self _ _) hc.1)]
    rw [ih (fun v hv => h v (List.mem_cons_of_mem _ hv))]
    rfl

theorem returnScan_none_of_no_plate {p : String} {vs : List Vehicle}
    (h : ∀ v ∈ vs, v.plate_number ≠ p) : returnScan p vs = none := by
  induction vs with
  | nil => rfl
  | cons w ws ih =>
    rw [returnScan, if_neg (h w (List.mem_cons_self _ _))]
    rw [ih (fun v hv => h v (List.mem_cons_of_mem _ hv))]
    rfl

theorem rentScan_eq_of_nodup {p : String} {vs : List Vehicle}
    (hnd : (vs.map Vehicle.plate_number).Nodup) :
    rentScan p vs =
      match findByPlate p vs with
      | some v =>
        if v.vehicleisavailable = true then some (setAvailOnPlate p false vs) else none
      | none => none := by
  induction vs with
  | nil => rfl
  | cons w ws ih =>
    simp only [List.map_cons, List.nodup_cons] at hnd
    obtain ⟨hwp, hnd'⟩ := hnd
    rw [findByPlate_cons]
    by_cases hp : w.plate_number = p
    · have hno : ∀ v ∈ ws, v.plate_number ≠ p := by
        intro v hv hc
        exact hwp (by rw [hp]; rw [← hc]; exact List.mem_map_of_mem _ hv)
      rw [if_pos hp]
      dsimp only
      by_cases hav : w.vehicleisavailable = true
      · rw [rentScan, if_pos ⟨hp, hav⟩, if_pos hav]
        simp only [setAvailOnPlate, List.map_cons, if_pos hp]
        have := setAvailOnPlate_of_no_plate (a := false) hno
        simp only [setAvailOnPlate] at this
        rw [this]
      · rw [rentScan, if_neg (fun hc => hav hc.2), if_neg hav]
        rw [rentScan_none_of_no_plate hno]
        rfl
    · rw [if_neg hp]
      rw [rentScan, if_neg (fun hc => hp hc.1)]
      rw [ih hnd']
      cases hfb : findByPlate p ws with
      | none => rfl
      | some v =>
        dsimp only
        by_cases hav : v.vehicleisavailable = true
        · rw [if_pos hav, if_pos hav]
          simp only [setAvailOnPlate, List.map_cons, if_neg hp]
          rfl
        · rw [if_neg hav, if_neg hav]
          rfl

theorem returnScan_eq_of_nodup {p : String} {vs : List Vehicle}
    (hnd : (vs.map Vehicle.plate_number).Nodup) :
    returnScan p vs = (findByPlate p vs).map (fun _ => setAvailOnPlate p true vs) := by
  induction vs with
  | nil => rfl
  | cons w ws ih =>
    simp only [List.map_cons, List.nodup_cons] at hnd
    obtain ⟨hwp, hnd'⟩ := hnd
    rw [findByPlate_cons]
    by_cases hp : w.plate_number = p
    · have hno : ∀ v ∈ ws, v.plate_number ≠ p := by
        intro v hv hc
        exact hwp (by rw [hp]; rw [← hc]; exact List.mem_map_of_mem _ hv)
      rw [if_pos hp]
      rw [returnScan, if_pos hp]
      simp only [setAvailOnPlate, List.map_cons, if_pos hp]
      have := setAvailOnPlate_of_no_plate (a := true) hno
      simp only [setAvailOnPlate] at this
      rw [this]
      rfl
    · rw [if_neg hp]
      rw [returnScan, if_neg hp, ih hnd']
      cases hfb : findByPlate p ws with
      | none => rfl
      | some v =>
        simp only [setAvailOnPlate, List.map_cons, if_neg hp]
        rfl

theorem lookupLoc_mem {m : List (String × List Vehicle)} {loc : String} {vs : List Vehicle}
    (h : lookupLoc m loc = some vs) : (loc, vs) ∈ m := by
  induction m with
  | nil => simp [lookupLoc] at h
  | cons e rest ih =>
    obtain ⟨k, ws⟩ := e
    by_cases hk : k = loc
    · rw [lookupLoc, if_pos hk] at h
      cases h
      subst hk
      exact List.mem_cons_self _ _
    · rw [lookupLoc, if_neg hk] at h
      exact List.mem_cons_of_mem _ (ih h)

theorem lookupLoc_split {m : List (String × List Vehicle)} {loc : String} {vs : List Vehicle}
    (h : lookupLoc m loc = some vs) :
    ∃ m₁ m₂, m = m₁ ++ (loc, vs) :: m₂ ∧ ∀ e ∈ m₁, e.1 ≠ loc := by
  induction m with
  | nil => simp [lookupLoc] at h
  | cons e rest ih =>
    obtain ⟨k, ws⟩ := e
    by_cases hk : k = loc
    · rw [lookupLoc, if_pos hk] at h
      cases h
      subst hk
      exact ⟨[], rest, rfl, by simp⟩
    · rw [lookupLoc, if_neg hk] at h
      obtain ⟨m₁, m₂, heq, hne⟩ := ih h
      refine ⟨(k, ws) :: m₁, m₂, by rw [heq]; rfl, ?_⟩
      intro e he
      rcases List.mem_cons.mp he with rfl | he'
      · exact hk
      · exact hne e he'

theorem lookupLoc_append_not {m₁ : List (String × List Vehicle)} {loc : String}
    (h : ∀ e ∈ m₁, e.1 ≠ loc) (rest : List (String × List Vehicle)) :
    lookupLoc (m₁ ++ rest) loc = lookupLoc rest loc := by
  induction m₁ with
  | nil => rfl
  | cons e m ih =>
    obtain ⟨k, ws⟩ := e
    rw [List.cons_append, lookupLoc, if_neg (h (k, ws) (List.mem_cons_self _ _))]
    exact ih (fun e he => h e (List.mem_cons_of_mem _ he))

theorem lookupLoc_middle_ne {l loc : String} (hne : l ≠ loc)
    (m₁ m₂ : List (String × List Vehicle)) (vs vs' : List Vehicle) :
    lookupLoc (m₁ ++ (loc, vs') :: m₂) l = lookupLoc (m₁ ++ (loc, vs) :: m₂) l := by
  induction m₁ with
  | nil =>
    simp only [List.nil_append]
    rw [lookupLoc, lookupLoc, if_neg (fun hc => hne hc.symm), if_neg (fun hc => hne hc.symm)]
  | cons e m ih =>
    obtain ⟨k, ws⟩ := e
    by_cases hk : k = l
    · rw [List.cons_append, List.cons_append, lookupLoc, lookupLoc, if_pos hk, if_pos hk]
    · rw [List.cons_append, List.cons_append, lookupLoc, lookupLoc, if_neg hk, if_neg hk]
      exact ih

theorem setLoc_append {m₁ : List (String × List Vehicle)} {loc : String}
    (h : ∀ e ∈ m₁, e.1 ≠ loc) (vs vs' : List Vehicle) (m₂ : List (String × List Vehicle)) :
    setLoc loc vs' (m₁ ++ (loc, vs) :: m₂) = m₁ ++ (loc, vs') :: m₂ := by
  induction m₁ with
  | nil => simp [setLoc]
  | cons e m ih =>
    obtain ⟨k, ws⟩ := e
    rw [List.cons_append, setLoc, if_neg (h (k, ws) (List.mem_cons_self _ _))]
    rw [ih (fun e he => h e (List.mem_cons_of_mem _ he))]
    rfl

theorem mapEntries_append {m₁ m₂ : List (String × List Vehicle)} {loc : String}
    (h1 : ∀ e ∈ m₁, e.1 ≠ loc) (h2 : ∀ e ∈ m₂, e.1 ≠ loc)
    (vs : List Vehicle) (f : List Vehicle → List Vehicle) :
    (m₁ ++ (loc, vs) :: m₂).map (fun e => if e.1 = loc then (e.1, f e.2) else e) =
      m₁ ++ (loc, f vs) :: m₂ := by
  rw [List.map_append, List.map_cons]
  rw [map_id_of_eq (fun e he => if_neg (h1 e he)),
    map_id_of_eq (fun e he => if_neg (h2 e he)), if_pos rfl]

theorem keys_middle_not_right {m₁ m₂ : List (String × List Vehicle)} {loc : String}
    {vs : List Vehicle}
    (hnd : ((m₁ ++ (loc, vs) :: m₂).map Prod.fst).Nodup) : ∀ e ∈ m₂, e.1 ≠ loc := by
  rw [List.map_append, List.map_cons] at hnd
  have h2 := hnd.of_append_right
  rw [List.nodup_cons] at h2
  intro e he hc
  have hm : e.1 ∈ m₂.map Prod.fst := List.mem_map_of_mem _ he
  rw [hc] at hm
  exact h2.1 hm

theorem findBooking_some {records : List Booking} {bid : Nat} {b : Booking}
    (h : findBooking records bid = some b) : b ∈ records ∧ b.booking_id = bid := by
  induction records with
  | nil => simp [findBooking] at h
  | cons x rest ih =>
    by_cases hx : x.booking_id = bid
    · rw [findBooking, if_pos hx] at h
      cases h
      exact ⟨List.mem_cons_self _ _, hx⟩
    · rw [findBooking, if_neg hx] at h
      obtain ⟨h1, h2⟩ := ih h
      exact ⟨List.mem_cons_of_mem _ h1, h2⟩

theorem findBooking_split {records : List Booking} {bid : Nat} {b : Booking}
    (h : findBooking records bid = some b) :
    ∃ l₁ l₂, records = l₁ ++ b :: l₂ ∧ ∀ x ∈ l₁, x.booking_id ≠ bid := by
  induction records with
  | nil => simp [findBooking] at h
  | cons x rest ih =>
    by_cases hx : x.booking_id = bid
    · rw [findBooking, if_pos hx] at h
      cases h
      exact ⟨[], rest, rfl, by simp⟩
    · rw [findBooking, if_neg hx] at h
      obtain ⟨l₁, l₂, heq, hne⟩ := ih h
      refine ⟨x :: l₁, l₂, by rw [heq]; rfl, ?_⟩
      intro y hy
      rcases List.mem_cons.mp hy with rfl | hy'
      · exact hx
      · exact hne y hy'

theorem findBooking_append_left {l₁ : List Booking} {bid : Nat}
    (h : ∀ x ∈ l₁, x.booking_id ≠ bid) (l₂ : List Booking) :
    findBooking (l₁ ++ l₂) bid = findBooking l₂ bid := by
  induction l₁ with
  | nil => rfl
  | cons x rest ih =>
    rw [List.cons_append, findBooking, if_neg (h x (List.mem_cons_self _ _))]
    exact ih (fun y hy => h y (List.mem_cons_of_mem _ hy))

theorem setBookingStatus_of_no_id {l : List Booking} {bid : Nat} {s : BookingStatus}
    (h : ∀ x ∈ l, x.booking_id ≠ bid) : setBookingStatus l bid s = l := by
  rw [setBookingStatus]
  exact map_id_of_eq (fun x hx => if_neg (h x hx))

theorem findBooking_setBookingStatus_self (records : List Booking) (bid : Nat)
    (s : BookingStatus) :
    findBooking (setBookingStatus records bid s) bid =
      (findBooking records bid).map (fun b => { b with status := s }) := by
  induction records with
  | nil => rfl
  | cons x rest ih =>
    simp only [setBookingStatus, List.map_cons] at ih ⊢
    by_cases hx : x.booking_id = bid
    · rw [if_pos hx, findBooking, findBooking, if_pos hx, if_pos hx]
      rfl
    · rw [if_neg hx, findBooking, findBooking, if_neg hx, if_neg hx]
      exact ih

theorem findBooking_setBookingStatus_ne {bid' bid : Nat} (hne : bid' ≠ bid)
    (records : List Booking) (s : BookingStatus) :
    findBooking (setBookingStatus records bid s) bid' = findBooking records bid' := by
  induction records with
  | nil => rfl
  | cons x rest ih =>
    simp only [setBookingStatus, List.map_cons] at ih ⊢
    by_cases hx : x.booking_id = bid
    · have hxne : ¬x.booking_id = bid' := by
        rw [hx]
        exact fun hc => hne hc.symm
      rw [if_pos hx, findBooking, findBooking]
      dsimp only
      rw [if_neg hxne, if_neg hxne]
      exact ih
    · rw [if_neg hx, findBooking, findBooking]
      by_cases hx2 : x.booking_id = bid'
      · rw [if_pos hx2, if_pos hx2]
      · rw [if_neg hx2, if_neg hx2]
        exact ih

theorem vehicles_addvehicle_map_perm (v : Vehicle) (m : List (String × List Vehicle)) :
    ((addvehicle_map v m).map Prod.snd).flatten.Perm
      ((m.map Prod.snd).flatten ++ [v]) := by
  induction m with
  | nil => simp [addvehicle_map]
  | cons e rest ih =>
    obtain ⟨k, ws⟩ := e
    by_cases hk : k = v.vehicle_location
    · rw [addvehicle_map, if_pos hk]
      simp only [List.map_cons, List.flatten_cons]
      rw [List.append_assoc, List.append_assoc]
      exact List.Perm.append_left ws List.perm_append_comm
    · rw [addvehicle_map, if_neg hk]
      simp only [List.map_cons, List.flatten_cons]
      rw [List.append_assoc]
      exact List.Perm.append_left ws ih

theorem keys_addvehicle_map (v : Vehicle) (m : List (String × List Vehicle)) :
    (addvehicle_map v m).map Prod.fst =
      if v.vehicle_location ∈ m.map Prod.fst then m.map Prod.fst
      else m.map Prod.fst ++ [v.vehicle_location] := by
  induction m with
  | nil => simp [addvehicle_map]
  | cons e rest ih =>
    obtain ⟨k, ws⟩ := e
    by_cases hk : k = v.vehicle_location
    · rw [addvehicle_map, if_pos hk]
      simp [hk]
    · rw [addvehicle_map, if_neg hk]
      simp only [List.map_cons, List.mem_cons]
      by_cases hm : v.vehicle_location ∈ rest.map Prod.fst
      · rw [if_pos (Or.inr hm), ih, if_pos hm]
      · rw [if_neg ?_, ih, if_neg hm, List.cons_append]
        rintro (hc | hc)
        · exact hk hc.symm
        · exact hm hc

theorem lookupLoc_addvehicle_map (v : Vehicle) (m : List (String × List Vehicle))
    (l : String) :
    lookupLoc (addvehicle_map v m) l =
      if l = v.vehicle_location then some ((lookupLoc m l).getD [] ++ [v])
      else lookupLoc m l := by
  induction m with
  | nil =>
    by_cases hl : l = v.vehicle_location
    · rw [if_pos hl]
      simp only [addvehicle_map, lookupLoc]
      rw [if_pos hl.symm]
      rfl
    · rw [if_neg hl]
      simp only [addvehicle_map, lookupLoc]
      rw [if_neg (fun hc => hl hc.symm)]
  | cons e rest ih =>
    obtain ⟨k, ws⟩ := e
    by_cases hk : k = v.vehicle_location
    · rw [addvehicle_map, if_pos hk]
      by_cases hl : l = v.vehicle_location
      · rw [if_pos hl]
        rw [lookupLoc, if_pos (hk.trans hl.symm), lookupLoc, if_pos (hk.trans hl.symm)]
        rfl
      · rw [if_neg hl]
        have hkl : ¬k = l := fun hc => hl (hc ▸ hk)
        rw [lookupLoc, if_neg hkl, lookupLoc, if_neg hkl]
    · rw [addvehicle_map, if_neg hk]
      by_cases hkl : k = l
      · have hl : ¬l = v.vehicle_location := fun hc => hk (hkl.trans hc)
        rw [if_neg hl]
        rw [lookupLoc, if_pos hkl, lookupLoc, if_pos hkl]
      · rw [lookupLoc, if_neg hkl]
        rw [ih]
        by_cases hl : l = v.vehicle_location
        · rw [if_pos hl, if_pos hl, lookupLoc, if_neg hkl]
        · rw [if_neg hl, if_neg hl, lookupLoc, if_neg hkl]

theorem getVehicles_addvehicle (st : RentalState) (v : Vehicle) (l : String) :
    getVehicles (addvehicle st v) l =
      if l = v.vehicle_location then getVehicles st l ++ [v] else getVehicles st l := by
  unfold getVehicles addvehicle
  dsimp only
  rw [lookupLoc_addvehicle_map]
  by_cases hl : l = v.vehicle_location
  · rw [if_pos hl, if_pos hl]
    rfl
  · rw [if_neg hl, if_neg hl]

theorem getVehicles_sublist (st : RentalState) (loc : String) :
    (getVehicles st loc).Sublist (allVehicles st) := by
  unfold getVehicles allVehicles
  cases hlk : lookupLoc st.vehicle_loc_hashmap loc with
  | none => simp
  | some vs =>
    obtain ⟨m₁, m₂, heq, -⟩ := lookupLoc_split hlk
    rw [heq]
    simp only [List.map_append, List.map_cons, List.flatten_append, List.flatten_cons,
      Option.getD_some]
    exact (List.sublist_append_left vs _).trans
      (List.sublist_append_right _ _)

theorem plates_nodup_loc {st : RentalState}
    (hnd : ((allVehicles st).map Vehicle.plate_number).Nodup) (loc : String) :
    ((getVehicles st loc).map Vehicle.plate_number).Nodup :=
  hnd.sublist ((getVehicles_sublist st loc).map _)

theorem loc_of_mem_getVehicles {st : RentalState} {loc : String} {v : Vehicle}
    (hl : ∀ e ∈ st.vehicle_loc_hashmap, ∀ w ∈ e.2, w.vehicle_location = e.1)
    (hv : v ∈ getVehicles st loc) : v.vehicle_location = loc := by
  unfold getVehicles at hv
  cases hlk : lookupLoc st.vehicle_loc_hashmap loc with
  | none =>
    rw [hlk] at hv
    simp at hv
  | some vs =>
    rw [hlk] at hv
    exact hl (loc, vs) (lookupLoc_mem hlk) v hv

theorem loc_correct_addvehicle_map {m : List (String × List Vehicle)} {v : Vehicle}
    (h : ∀ e ∈ m, ∀ w ∈ e.2, w.vehicle_location = e.1) :
    ∀ e ∈ addvehicle_map v m, ∀ w ∈ e.2, w.vehicle_location = e.1 := by
  induction m with
  | nil =>
    intro e he w hw
    rw [addvehicle_map] at he
    rcases List.mem_singleton.mp he with rfl
    rcases List.mem_singleton.mp hw with rfl
    rfl
  | cons x rest ih =>
    obtain ⟨k, ws⟩ := x
    intro e he w hw
    by_cases hk : k = v.vehicle_location
    · rw [addvehicle_map, if_pos hk] at he
      rcases List.mem_cons.mp he with rfl | he'
      · rcases List.mem_append.mp hw with hw' | hw'
        · exact h (k, ws) (List.mem_cons_self _ _) w hw'
        · rcases List.mem_singleton.mp hw' with rfl
          exact hk.symm
      · exact h e (List.mem_cons_of_mem _ he') w hw
    · rw [addvehicle_map, if_neg hk] at he
      rcases List.mem_cons.mp he with rfl | he'
      · exact h (k, ws) (List.mem_cons_self _ _) w hw
      · exact ih (fun e' he' => h e' (List.mem_cons_of_mem _ he')) e he' w hw

theorem countP_append_single_nonrented (records : List Booking) (bk : Booking)
    (hs : bk.status ≠ BookingStatus.RENTED) (p : String) :
    (records ++ [bk]).countP
        (fun b => decide (b.plate_number = p ∧ b.status = BookingStatus.RENTED)) =
      records.countP
        (fun b => decide (b.plate_number = p ∧ b.status = BookingStatus.RENTED)) := by
  rw [List.countP_append]
  have hbk : (fun b => decide (b.plate_number = p ∧ b.status = BookingStatus.RENTED)) bk
      = false := by
    simp only [decide_eq_false_iff_not, not_and]
    exact fun _ => hs
  simp [List.countP_cons, hbk]
  exact fun _ => hs

theorem lookupLoc_replace {m₁ m₂ : List (String × List Vehicle)} {loc : String}
    (h1 : ∀ e ∈ m₁, e.1 ≠ loc) (vs vs' : List Vehicle) (l : String) :
    lookupLoc (m₁ ++ (loc, vs') :: m₂) l =
      if l = loc then some vs' else lookupLoc (m₁ ++ (loc, vs) :: m₂) l := by
  by_cases hl : l = loc
  · rw [if_pos hl]
    subst hl
    rw [lookupLoc_append_not h1, lookupLoc, if_pos rfl]
  · rw [if_neg hl]
    exact lookupLoc_middle_ne hl m₁ m₂ vs vs'

theorem flatten_middle (m₁ m₂ : List (String × List Vehicle)) (loc : String)
    (vs : List Vehicle) :
    (((m₁ ++ (loc, vs) :: m₂).map Prod.snd).flatten) =
      (m₁.map Prod.snd).flatten ++ (vs ++ (m₂.map Prod.snd).flatten) := by
  simp [List.map_append, List.flatten_append]

theorem setAvail_decompose {F₁ vs F₂ : List Vehicle} {p : String}
    (hnd : ((F₁ ++ (vs ++ F₂)).map Vehicle.plate_number).Nodup)
    (hp : p ∈ vs.map Vehicle.plate_number) (a : Bool) :
    setAvailOnPlate p a (F₁ ++ (vs ++ F₂)) =
      F₁ ++ (setAvailOnPlate p a vs ++ F₂) := by
  rw [List.map_append, List.map_append] at hnd
  obtain ⟨hnd1, hnd2, hdisj⟩ := List.nodup_append.mp hnd
  obtain ⟨hndv, hndF2, hdisj2⟩ := List.nodup_append.mp hnd2
  have hF1 : ∀ u ∈ F₁, u.plate_number ≠ p := by
    intro u hu hc
    exact hdisj (List.mem_map_of_mem _ hu) (List.mem_append_left _ (hc ▸ hp))
  have hF2 : ∀ u ∈ F₂, u.plate_number ≠ p := by
    intro u hu hc
    exact hdisj2 (hc ▸ hp) (List.mem_map_of_mem _ hu)
  show ((F₁ ++ (vs ++ F₂)).map _) = _
  rw [List.map_append, List.map_append]
  rw [show (F₁.map (fun v => if v.plate_number = p then { v with vehicleisavailable := a } else v)) = F₁ from map_id_of_eq (fun u hu => if_neg (hF1 u hu))]
  rw [show (F₂.map (fun v => if v.plate_number = p then { v with vehicleisavailable := a } else v)) = F₂ from map_id_of_eq (fun u hu => if_neg (hF2 u hu))]
  rfl

theorem countP_middle {α : Type} (pr : α → Bool) (l₁ l₂ : List α) (b : α) :
    (l₁ ++ b :: l₂).countP pr =
      (l₁ ++ l₂).countP pr + (if pr b = true then 1 else 0) := by
  rw [List.countP_append, List.countP_cons, List.countP_append]
  omega

theorem ids_middle_not_right {l₁ l₂ : List Booking} {b : Booking}
    (hnd : ((l₁ ++ b :: l₂).map Booking.booking_id).Nodup) :
    ∀ x ∈ l₂, x.booking_id ≠ b.booking_id := by
  rw [List.map_append, List.map_cons] at hnd
  have h2 := hnd.of_append_right
  rw [List.nodup_cons] at h2
  intro x hx hc
  exact h2.1 (hc ▸ List.mem_map_of_mem _ hx)

theorem setBookingStatus_middle {l₁ l₂ : List Booking} {b : Booking} {bid : Nat}
    (hbid : b.booking_id = bid) (h1 : ∀ x ∈ l₁, x.booking_id ≠ bid)
    (h2 : ∀ x ∈ l₂, x.booking_id ≠ bid) (s : BookingStatus) :
    setBookingStatus (l₁ ++ b :: l₂) bid s = l₁ ++ { b with status := s } :: l₂ := by
  rw [setBookingStatus, List.map_append, List.map_cons, if_pos hbid,
    map_id_of_eq (fun x hx => if_neg (h1 x hx)),
    map_id_of_eq (fun x hx => if_neg (h2 x hx))]

theorem setBookingStatus_ids (records : List Booking) (bid : Nat) (s : BookingStatus) :
    (setBookingStatus records bid s).map Booking.booking_id =
      records.map Booking.booking_id := by
  rw [setBookingStatus, List.map_map]
  apply List.map_congr_left
  intro x hx
  by_cases hxb : x.booking_id = bid
  · show (if x.booking_id = bid then _ else x).booking_id = x.booking_id
    rw [if_pos hxb]
  · show (if x.booking_id = bid then _ else x).booking_id = x.booking_id
    rw [if_neg hxb]

theorem lookupLoc_setLoc {m : List (String × List Vehicle)} {loc : String} {vs : List Vehicle}
    (hlk : lookupLoc m loc = some vs) (vs' : List Vehicle) (l : String) :
    lookupLoc (setLoc loc vs' m) l = if l = loc then some vs' else lookupLoc m l := by
  induction m with
  | nil => simp [lookupLoc] at hlk
  | cons e rest ih =>
    obtain ⟨k, ws⟩ := e
    by_cases hk : k = loc
    · rw [setLoc, if_pos hk]
      by_cases hl : l = loc
      · rw [if_pos hl, lookupLoc, if_pos (hk.trans hl.symm)]
      · have hkl : ¬k = l := fun hc => hl (hc ▸ hk)
        rw [if_neg hl, lookupLoc, if_neg hkl, lookupLoc, if_neg hkl]
    · rw [lookupLoc, if_neg hk] at hlk
      rw [setLoc, if_neg hk]
      by_cases hkl : k = l
      · have hl : ¬l = loc := fun hc => hk (hkl.trans hc)
        rw [if_neg hl, lookupLoc, if_pos hkl, lookupLoc, if_pos hkl]
      · rw [lookupLoc, if_neg hkl, ih hlk, lookupLoc, if_neg hkl]

theorem keys_setLoc (loc : String) (vs' : List Vehicle) (m : List (String × List Vehicle)) :
    (setLoc loc vs' m).map Prod.fst = m.map Prod.fst := by
  induction m with
  | nil => rfl
  | cons e rest ih =>
    obtain ⟨k, ws⟩ := e
    by_cases hk : k = loc
    · rw [setLoc, if_pos hk]
      rfl
    · rw [setLoc, if_neg hk, List.map_cons, ih]
      rfl

theorem mem_allVehicles_of_getVehicles {st : RentalState} {loc : String} {v : Vehicle}
    (hv : v ∈ getVehicles st loc) : v ∈ allVehicles st :=
  (getVehicles_sublist st loc).subset hv

theorem plate_inj {st : RentalState}
    (hnd : ((allVehicles st).map Vehicle.plate_number).Nodup) {u w : Vehicle}
    (hu : u ∈ allVehicles st) (hw : w ∈ allVehicles st)
    (h : u.plate_number = w.plate_number) : u = w :=
  List.inj_on_of_nodup_map hnd hu hw h

/- The inductive invariant of the vehicle system along plate-fresh runs:
dict keys are unique, vehicles are filed under their own location, plate
numbers identify vehicles, booking ids are fresh and unique, every booking
references a vehicle that exists at the booking's location, and the number
of RENTED bookings on a plate is 1 exactly when that plate's vehicle is
unavailable. -/
structure RentalInv (st : RentalState) : Prop where
  keys_nodup : (st.vehicle_loc_hashmap.map Prod.fst).Nodup
  loc_correct : ∀ e ∈ st.vehicle_loc_hashmap, ∀ v ∈ e.2, v.vehicle_location = e.1
  plates_nodup : ((allVehicles st).map Vehicle.plate_number).Nodup
  ids_lt : ∀ b ∈ st.booking_records, b.booking_id < st.booking_counter
  ids_nodup : (st.booking_records.map Booking.booking_id).Nodup
  booking_vehicle : ∀ b ∈ st.booking_records,
    ∃ v ∈ getVehicles st b.location, v.plate_number = b.plate_number
  counts : ∀ v ∈ allVehicles st,
    rentedCount st v.plate_number = (if v.vehicleisavailable = true then 0 else 1)

theorem inv_initState : RentalInv initState := by
  constructor <;> first
    | exact List.nodup_nil
    | (intro x hx; simp [initState, allVehicles] at hx)

theorem inv_addvehicle {st : RentalState} (hinv : RentalInv st) {v : Vehicle}
    (hav : v.vehicleisavailable = true)
    (hfresh : v.plate_number ∉ (allVehicles st).map Vehicle.plate_number) :
    RentalInv (addvehicle st v) := by
  have hperm : (allVehicles (addvehicle st v)).Perm (allVehicles st ++ [v]) :=
    vehicles_addvehicle_map_perm v st.vehicle_loc_hashmap
  constructor
  · show ((addvehicle_map v st.vehicle_loc_hashmap).map Prod.fst).Nodup
    rw [keys_addvehicle_map]
    by_cases hmem : v.vehicle_location ∈ st.vehicle_loc_hashmap.map Prod.fst
    · rw [if_pos hmem]
      exact hinv.keys_nodup
    · rw [if_neg hmem]
      exact hinv.keys_nodup.append (List.nodup_singleton _)
        (fun a ha ha2 => hmem ((List.mem_singleton.mp ha2) ▸ ha))
  · exact loc_correct_addvehicle_map hinv.loc_correct
  · have hmap : ((allVehicles (addvehicle st v)).map Vehicle.plate_number).Perm
        ((allVehicles st).map Vehicle.plate_number ++ [v.plate_number]) := by
      have := hperm.map Vehicle.plate_number
      simpa using this
    refine hmap.nodup_iff.mpr ?_
    exact hinv.plates_nodup.append (List.nodup_singleton _)
      (fun a ha ha2 => hfresh ((List.mem_singleton.mp ha2) ▸ ha))
  · exact hinv.ids_lt
  · exact hinv.ids_nodup
  · intro b hb
    obtain ⟨v', hv', hvp⟩ := hinv.booking_vehicle b hb
    refine ⟨v', ?_, hvp⟩
    rw [getVehicles_addvehicle]
    by_cases hl : b.location = v.vehicle_location
    · rw [if_pos hl]
      exact List.mem_append_left _ hv'
    · rw [if_neg hl]
      exact hv'
  · intro w hw
    have hw' := hperm.mem_iff.mp hw
    rcases List.mem_append.mp hw' with hw1 | hw1
    · exact hinv.counts w hw1
    · rcases List.mem_singleton.mp hw1 with rfl
      rw [hav, if_pos rfl]
      show st.booking_records.countP _ = 0
      rw [List.countP_eq_zero]
      intro b hb
      simp only [decide_eq_true_eq, not_and]
      intro hbp _
      obtain ⟨v', hv', hvp⟩ := hinv.booking_vehicle b hb
      apply hfresh
      rw [← hbp, ← hvp]
      exact List.mem_map_of_mem _ ((getVehicles_sublist st b.location).subset hv')

theorem inv_createBooking {st : RentalState} (hinv : RentalInv st) (u : User)
    (n loc : String) : RentalInv (createBooking st u n loc).2 := by
  unfold createBooking
  cases hscan : bookScan n (getVehicles st loc) with
  | none => exact hinv
  | some v =>
    obtain ⟨hv_mem, hv_name, hv_avail⟩ := bookScan_some hscan
    have hv_loc : v.vehicle_location = loc := loc_of_mem_getVehicles hinv.loc_correct hv_mem
    dsimp only
    constructor
    · exact hinv.keys_nodup
    · exact hinv.loc_correct
    · exact hinv.plates_nodup
    · intro b hb
      rcases List.mem_append.mp hb with hb1 | hb1
      · exact Nat.lt_succ_of_lt (hinv.ids_lt b hb1)
      · rcases List.mem_singleton.mp hb1 with rfl
        exact Nat.lt_succ_self _
    · rw [List.map_append]
      refine hinv.ids_nodup.append (List.nodup_singleton _) ?_
      intro a ha ha2
      rcases List.mem_singleton.mp ha2 with rfl
      obtain ⟨b, hb, hbid⟩ := List.mem_map.mp ha
      exact absurd hbid (Nat.ne_of_lt (hinv.ids_lt b hb))
    · intro b hb
      rcases List.mem_append.mp hb with hb1 | hb1
      · exact hinv.booking_vehicle b hb1
      · rcases List.mem_singleton.mp hb1 with rfl
        refine ⟨v, ?_, rfl⟩
        show v ∈ getVehicles _ v.vehicle_location
        rw [hv_loc]
        exact hv_mem
    · intro w hw
      have hc := hinv.counts w hw
      rw [rentedCount] at hc
      rw [rentedCount]
      dsimp only
      rw [countP_append_single_nonrented _ _ (by intro hc2; cases hc2) _]
      exact hc

theorem rentScan_success_char {p : String} {vs : List Vehicle}
    (hnd : (vs.map Vehicle.plate_number).Nodup) {vs' : List Vehicle}
    (hscan : rentScan p vs = some vs') :
    ∃ v₀, findByPlate p vs = some v₀ ∧ v₀.vehicleisavailable = true ∧
      v₀.plate_number = p ∧ v₀ ∈ vs ∧ vs' = setAvailOnPlate p false vs := by
  rw [rentScan_eq_of_nodup hnd] at hscan
  cases hfb : findByPlate p vs with
  | none =>
    rw [hfb] at hscan
    cases hscan
  | some v₀ =>
    rw [hfb] at hscan
    dsimp only at hscan
    by_cases hav : v₀.vehicleisavailable = true
    · rw [if_pos hav] at hscan
      obtain ⟨hmem, hp⟩ := findByPlate_some hfb
      injection hscan with h
      exact ⟨v₀, rfl, hav, hp, hmem, h.symm⟩
    · rw [if_neg hav] at hscan
      cases hscan

theorem returnScan_success_char {p : String} {vs : List Vehicle}
    (hnd : (vs.map Vehicle.plate_number).Nodup) {vs' : List Vehicle}
    (hscan : returnScan p vs = some vs') :
    ∃ v₀, findByPlate p vs = some v₀ ∧
      v₀.plate_number = p ∧ v₀ ∈ vs ∧ vs' = setAvailOnPlate p true vs := by
  rw [returnScan_eq_of_nodup hnd] at hscan
  cases hfb : findByPlate p vs with
  | none =>
    rw [hfb] at hscan
    cases hscan
  | some v₀ =>
    rw [hfb] at hscan
    obtain ⟨hmem, hp⟩ := findByPlate_some hfb
    injection hscan with h
    exact ⟨v₀, rfl, hp, hmem, h.symm⟩

theorem lookupLoc_of_ne {st : RentalState} {loc : String}
    (hne : getVehicles st loc ≠ []) :
    lookupLoc st.vehicle_loc_hashmap loc = some (getVehicles st loc) := by
  unfold getVehicles at *
  cases hl0 : lookupLoc st.vehicle_loc_hashmap loc with
  | none =>
    rw [hl0] at hne
    simp at hne
  | some vs =>
    rfl

theorem inv_rentVehicle {st : RentalState} (hinv : RentalInv st) (bid : Nat) :
    RentalInv (rentVehicle st bid).2 := by
  unfold rentVehicle
  cases hb : findBooking st.booking_records bid with
  | none => exact hinv
  | some b =>
    dsimp only
    by_cases hstat : b.status = BookingStatus.BOOKED
    · rw [if_pos hstat]
      cases hscan : rentScan b.plate_number (getVehicles st b.location) with
      | none => exact hinv
      | some vs0 =>
        dsimp only
        obtain ⟨hbmem, hbid⟩ := findBooking_some hb
        have hnd_loc := plates_nodup_loc hinv.plates_nodup b.location
        obtain ⟨v₀, hfb, hav, hv₀p, hv₀mem, rfl⟩ := rentScan_success_char hnd_loc hscan
        have hne : getVehicles st b.location ≠ [] := by
          intro h
          rw [h] at hv₀mem
          simp at hv₀mem
        have hlk := lookupLoc_of_ne hne
        obtain ⟨m₁, m₂, heq, h1⟩ := lookupLoc_split hlk
        obtain ⟨l₁, l₂, hreq, hl1⟩ := findBooking_split hb
        have hl2 : ∀ x ∈ l₂, x.booking_id ≠ bid := by
          intro x hx
          rw [← hbid]
          exact ids_middle_not_right (by rw [← hreq]; exact hinv.ids_nodup) x hx
        have hsetb : setBookingStatus st.booking_records bid BookingStatus.RENTED =
            l₁ ++ { b with status := BookingStatus.RENTED } :: l₂ := by
          rw [hreq]
          exact setBookingStatus_middle hbid hl1 hl2 _
        have hp_in : b.plate_number ∈ (getVehicles st b.location).map Vehicle.plate_number := by
          rw [← hv₀p]
          exact List.mem_map_of_mem _ hv₀mem
        have hall : allVehicles st = (m₁.map Prod.snd).flatten ++
            (getVehicles st b.location ++ (m₂.map Prod.snd).flatten) := by
          rw [allVehicles, heq]
          exact flatten_middle _ _ _ _
        have hset : setLoc b.location
            (setAvailOnPlate b.plate_number false (getVehicles st b.location))
            st.vehicle_loc_hashmap =
            m₁ ++ (b.location,
              setAvailOnPlate b.plate_number false (getVehicles st b.location)) :: m₂ := by
          conv_lhs => rw [heq]
          exact setLoc_append h1 _ _ _
        have hall' : ((setLoc b.location
            (setAvailOnPlate b.plate_number false (getVehicles st b.location))
            st.vehicle_loc_hashmap).map Prod.snd).flatten =
            setAvailOnPlate b.plate_number false (allVehicles st) := by
          rw [hset, flatten_middle, hall]
          exact (setAvail_decompose (by rw [← hall]; exact hinv.plates_nodup) hp_in false).symm
        have hget : ∀ l, getVehicles ({ st with
            vehicle_loc_hashmap := setLoc b.location
              (setAvailOnPlate b.plate_number false (getVehicles st b.location))
              st.vehicle_loc_hashmap,
            booking_records := setBookingStatus st.booking_records bid
              BookingStatus.RENTED } : RentalState) l =
            if l = b.location then
              setAvailOnPlate b.plate_number false (getVehicles st b.location)
            else getVehicles st l := by
          intro l
          show (lookupLoc (setLoc b.location
            (setAvailOnPlate b.plate_number false (getVehicles st b.location))
            st.vehicle_loc_hashmap) l).getD [] = _
          rw [lookupLoc_setLoc hlk]
          by_cases hl : l = b.location
          · rw [if_pos hl, if_pos hl]
            rfl
          · rw [if_neg hl, if_neg hl]
            rfl
        have hcount' : ∀ r, (setBookingStatus st.booking_records bid
            BookingStatus.RENTED).countP
              (fun bk => decide (bk.plate_number = r ∧ bk.status = BookingStatus.RENTED)) =
            rentedCount st r + (if b.plate_number = r then 1 else 0) := by
          intro r
          rw [hsetb, countP_middle, rentedCount, hreq, countP_middle]
          simp only [decide_eq_true_eq, hstat]
          by_cases hbr : b.plate_number = r
          · simp [hbr]
          · simp [hbr]
        have hcount0 : rentedCount st b.plate_number = 0 := by
          have hc := hinv.counts v₀ (mem_allVehicles_of_getVehicles hv₀mem)
          rw [hv₀p, hav] at hc
          rw [hc]
          rfl
        constructor
        · show ((setLoc _ _ _).map Prod.fst).Nodup
          rw [keys_setLoc]
          exact hinv.keys_nodup
        · intro e he w hw
          rw [show ({ st with
              vehicle_loc_hashmap := setLoc b.location
                (setAvailOnPlate b.plate_number false (getVehicles st b.location))
                st.vehicle_loc_hashmap,
              booking_records := setBookingStatus st.booking_records bid
                BookingStatus.RENTED } : RentalState).vehicle_loc_hashmap =
            m₁ ++ (b.location,
              setAvailOnPlate b.plate_number false (getVehicles st b.location)) :: m₂
            from hset] at he
          rcases List.mem_append.mp he with he1 | he1
          · exact hinv.loc_correct e (by rw [heq]; exact List.mem_append_left _ he1) w hw
          · rcases List.mem_cons.mp he1 with rfl | he2
            · obtain ⟨u, hu, rfl⟩ := List.mem_map.mp hw
              have hu_loc : u.vehicle_location = b.location :=
                loc_of_mem_getVehicles hinv.loc_correct hu
              by_cases hup : u.plate_number = b.plate_number
              · rw [if_pos hup]
                exact hu_loc
              · rw [if_neg hup]
                exact hu_loc
            · exact hinv.loc_correct e
                (by rw [heq]; exact List.mem_append_right _ (List.mem_cons_of_mem _ he2)) w hw
        · show ((((setLoc _ _ _).map Prod.snd).flatten).map Vehicle.plate_number).Nodup
          rw [hall', setAvailOnPlate_plates]
          exact hinv.plates_nodup
        · intro b2 hb2
          obtain ⟨x, hx, rfl⟩ := List.mem_map.mp hb2
          show (if x.booking_id = bid then _ else x).booking_id < st.booking_counter
          by_cases hxb : x.booking_id = bid
          · rw [if_pos hxb]
            exact hinv.ids_lt x hx
          · rw [if_neg hxb]
            exact hinv.ids_lt x hx
        · show ((setBookingStatus _ _ _).map Booking.booking_id).Nodup
          rw [setBookingStatus_ids]
          exact hinv.ids_nodup
        · intro b2 hb2
          obtain ⟨x, hx, rfl⟩ := List.mem_map.mp hb2
          obtain ⟨v', hv', hvp'⟩ := hinv.booking_vehicle x hx
          have hxloc : (if x.booking_id = bid then
              ({ x with status := BookingStatus.RENTED } : Booking) else x).location =
              x.location := by
            by_cases hxb : x.booking_id = bid
            · rw [if_pos hxb]
            · rw [if_neg hxb]
          have hxplate : (if x.booking_id = bid then
              ({ x with status := BookingStatus.RENTED } : Booking) else x).plate_number =
              x.plate_number := by
            by_cases hxb : x.booking_id = bid
            · rw [if_pos hxb]
            · rw [if_neg hxb]
          rw [hxloc, hxplate]
          rw [hget]
          by_cases hloc : x.location = b.location
          · rw [if_pos hloc]
            refine ⟨if v'.plate_number = b.plate_number then
                { v' with vehicleisavailable := false } else v', ?_, ?_⟩
            · exact List.mem_map_of_mem _ (hloc ▸ hv')
            · by_cases hvb : v'.plate_number = b.plate_number
              · rw [if_pos hvb]
                exact hvp'
              · rw [if_neg hvb]
                exact hvp'
          · rw [if_neg hloc]
            exact ⟨v', hv', hvp'⟩
        · intro w hw
          show (setBookingStatus _ _ _).countP _ = _
          rw [show (allVehicles { st with
              vehicle_loc_hashmap := setLoc b.location
                (setAvailOnPlate b.plate_number false (getVehicles st b.location))
                st.vehicle_loc_hashmap,
              booking_records := setBookingStatus st.booking_records bid
                BookingStatus.RENTED } : List Vehicle) =
            setAvailOnPlate b.plate_number false (allVehicles st) from hall'] at hw
          obtain ⟨u, hu, rfl⟩ := List.mem_map.mp hw
          by_cases hup : u.plate_number = b.plate_number
          · rw [if_pos hup]
            show (setBookingStatus st.booking_records bid BookingStatus.RENTED).countP
              (fun bk => decide (bk.plate_number = u.plate_number ∧
                bk.status = BookingStatus.RENTED)) =
              (if false = true then 0 else 1)
            rw [hcount', hup, hcount0, if_pos rfl]
            rfl
          · rw [if_neg hup]
            show (setBookingStatus st.booking_records bid BookingStatus.RENTED).countP
              (fun bk => decide (bk.plate_number = u.plate_number ∧
                bk.status = BookingStatus.RENTED)) =
              (if u.vehicleisavailable = true then 0 else 1)
            rw [hcount', if_neg (fun hc => hup hc.symm), Nat.add_zero]
            exact hinv.counts u hu
    · rw [if_neg hstat]
      exact hinv

theorem inv_returnVehicle {st : RentalState} (hinv : RentalInv st) (bid : Nat) :
    RentalInv (returnVehicle st bid).2 := by
  unfold returnVehicle
  cases hb : findBooking st.booking_records bid with
  | none => exact hinv
  | some b =>
    dsimp only
    by_cases hstat : b.status = BookingStatus.RENTED
    · rw [if_pos hstat]
      cases hscan : returnScan b.plate_number (getVehicles st b.location) with
      | none => exact hinv
      | some vs0 =>
        dsimp only
        obtain ⟨hbmem, hbid⟩ := findBooking_some hb
        have hnd_loc := plates_nodup_loc hinv.plates_nodup b.location
        obtain ⟨v₀, hfb, hv₀p, hv₀mem, rfl⟩ := returnScan_success_char hnd_loc hscan
        have hne : getVehicles st b.location ≠ [] := by
          intro h
          rw [h] at hv₀mem
          simp at hv₀mem
        have hlk := lookupLoc_of_ne hne
        obtain ⟨m₁, m₂, heq, h1⟩ := lookupLoc_split hlk
        obtain ⟨l₁, l₂, hreq, hl1⟩ := findBooking_split hb
        have hl2 : ∀ x ∈ l₂, x.booking_id ≠ bid := by
          intro x hx
          rw [← hbid]
          exact ids_middle_not_right (by rw [← hreq]; exact hinv.ids_nodup) x hx
        have hsetb : setBookingStatus st.booking_records bid BookingStatus.COMPLETED =
            l₁ ++ { b with status := BookingStatus.COMPLETED } :: l₂ := by
          rw [hreq]
          exact setBookingStatus_middle hbid hl1 hl2 _
        have hp_in : b.plate_number ∈ (getVehicles st b.location).map Vehicle.plate_number := by
          rw [← hv₀p]
          exact List.mem_map_of_mem _ hv₀mem
        have hall : allVehicles st = (m₁.map Prod.snd).flatten ++
            (getVehicles st b.location ++ (m₂.map Prod.snd).flatten) := by
          rw [allVehicles, heq]
          exact flatten_middle _ _ _ _
        have hset : setLoc b.location
            (setAvailOnPlate b.plate_number true (getVehicles st b.location))
            st.vehicle_loc_hashmap =
            m₁ ++ (b.location,
              setAvailOnPlate b.plate_number true (getVehicles st b.location)) :: m₂ := by
          conv_lhs => rw [heq]
          exact setLoc_append h1 _ _ _
        have hall' : ((setLoc b.location
            (setAvailOnPlate b.plate_number true (getVehicles st b.location))
            st.vehicle_loc_hashmap).map Prod.snd).flatten =
            setAvailOnPlate b.plate_number true (allVehicles st) := by
          rw [hset, flatten_middle, hall]
          exact (setAvail_decompose (by rw [← hall]; exact hinv.plates_nodup) hp_in true).symm
        have hget : ∀ l, getVehicles ({ st with
            vehicle_loc_hashmap := setLoc b.location
              (setAvailOnPlate b.plate_number true (getVehicles st b.location))
              st.vehicle_loc_hashmap,
            booking_records := setBookingStatus st.booking_records bid
              BookingStatus.COMPLETED } : RentalState) l =
            if l = b.location then
              setAvailOnPlate b.plate_number true (getVehicles st b.location)
            else getVehicles st l := by
          intro l
          show (lookupLoc (setLoc b.location
            (setAvailOnPlate b.plate_number true (getVehicles st b.location))
            st.vehicle_loc_hashmap) l).getD [] = _
          rw [lookupLoc_setLoc hlk]
          by_cases hl : l = b.location
          · rw [if_pos hl, if_pos hl]
            rfl
          · rw [if_neg hl, if_neg hl]
            rfl
        have hcount' : ∀ r, (setBookingStatus st.booking_records bid
            BookingStatus.COMPLETED).countP
              (fun bk => decide (bk.plate_number = r ∧ bk.status = BookingStatus.RENTED)) +
              (if b.plate_number = r then 1 else 0) =
            rentedCount st r := by
          intro r
          rw [hsetb, countP_middle, rentedCount, hreq, countP_middle]
          simp only [decide_eq_true_eq, hstat]
          by_cases hbr : b.plate_number = r
          · simp [hbr]
          · simp [hbr]
        constructor
        · show ((setLoc _ _ _).map Prod.fst).Nodup
          rw [keys_setLoc]
          exact hinv.keys_nodup
        · intro e he w hw
          rw [show ({ st with
              vehicle_loc_hashmap := setLoc b.location
                (setAvailOnPlate b.plate_number true (getVehicles st b.location))
                st.vehicle_loc_hashmap,
              booking_records := setBookingStatus st.booking_records bid
                BookingStatus.COMPLETED } : RentalState).vehicle_loc_hashmap =
            m₁ ++ (b.location,
              setAvailOnPlate b.plate_number true (getVehicles st b.location)) :: m₂
            from hset] at he
          rcases List.mem_append.mp he with he1 | he1
          · exact hinv.loc_correct e (by rw [heq]; exact List.mem_append_left _ he1) w hw
          · rcases List.mem_cons.mp he1 with rfl | he2
            · obtain ⟨u, hu, rfl⟩ := List.mem_map.mp hw
              have hu_loc : u.vehicle_location = b.location :=
                loc_of_mem_getVehicles hinv.loc_correct hu
              by_cases hup : u.plate_number = b.plate_number
              · rw [if_pos hup]
                exact hu_loc
              · rw [if_neg hup]
                exact hu_loc
            · exact hinv.loc_correct e
                (by rw [heq]; exact List.mem_append_right _ (List.mem_cons_of_mem _ he2)) w hw
        · show ((((setLoc _ _ _).map Prod.snd).flatten).map Vehicle.plate_number).Nodup
          rw [hall', setAvailOnPlate_plates]
          exact hinv.plates_nodup
        · intro b2 hb2
          obtain ⟨x, hx, rfl⟩ := List.mem_map.mp hb2
          show (if x.booking_id = bid then _ else x).booking_id < st.booking_counter
          by_cases hxb : x.booking_id = bid
          · rw [if_pos hxb]
            exact hinv.ids_lt x hx
          · rw [if_neg hxb]
            exact hinv.ids_lt x hx
        · show ((setBookingStatus _ _ _).map Booking.booking_id).Nodup
          rw [setBookingStatus_ids]
          exact hinv.ids_nodup
        · intro b2 hb2
          obtain ⟨x, hx, rfl⟩ := List.mem_map.mp hb2
          obtain ⟨v', hv', hvp'⟩ := hinv.booking_vehicle x hx
          have hxloc : (if x.booking_id = bid then
              ({ x with status := BookingStatus.COMPLETED } : Booking) else x).location =
              x.location := by
            by_cases hxb : x.booking_id = bid
            · rw [if_pos hxb]
            · rw [if_neg hxb]
          have hxplate : (if x.booking_id = bid then
              ({ x with status := BookingStatus.COMPLETED } : Booking) else x).plate_number =
              x.plate_number := by
            by_cases hxb : x.booking_id = bid
            · rw [if_pos hxb]
            · rw [if_neg hxb]
          rw [hxloc, hxplate]
          rw [hget]
          by_cases hloc : x.location = b.location
          · rw [if_pos hloc]
            refine ⟨if v'.plate_number = b.plate_number then
                { v' with vehicleisavailable := true } else v', ?_, ?_⟩
            · exact List.mem_map_of_mem _ (hloc ▸ hv')
            · by_cases hvb : v'.plate_number = b.plate_number
              · rw [if_pos hvb]
                exact hvp'
              · rw [if_neg hvb]
                exact hvp'
          · rw [if_neg hloc]
            exact ⟨v', hv', hvp'⟩
        · intro w hw
          rw [show (allVehicles { st with
              vehicle_loc_hashmap := setLoc b.location
                (setAvailOnPlate b.plate_number true (getVehicles st b.location))
                st.vehicle_loc_hashmap,
              booking_records := setBookingStatus st.booking_records bid
                BookingStatus.COMPLETED } : List Vehicle) =
            setAvailOnPlate b.plate_number true (allVehicles st) from hall'] at hw
          obtain ⟨u, hu, rfl⟩ := List.mem_map.mp hw
          by_cases hup : u.plate_number = b.plate_number
          · rw [if_pos hup]
            show (setBookingStatus st.booking_records bid BookingStatus.COMPLETED).countP
              (fun bk => decide (bk.plate_number = u.plate_number ∧
                bk.status = BookingStatus.RENTED)) = 0
            have h1c := hcount' u.plate_number
            have h2c := hinv.counts u hu
            rw [if_pos (hup ▸ rfl : b.plate_number = u.plate_number)] at h1c
            rw [h2c] at h1c
            by_cases huav : u.vehicleisavailable = true
            · rw [if_pos huav] at h1c
              omega
            · rw [if_neg huav] at h1c
              omega
          · rw [if_neg hup]
            show (setBookingStatus st.booking_records bid BookingStatus.COMPLETED).countP
              (fun bk => decide (bk.plate_number = u.plate_number ∧
                bk.status = BookingStatus.RENTED)) =
              (if u.vehicleisavailable = true then 0 else 1)
            have h1c := hcount' u.plate_number
            rw [if_neg (fun hc => hup hc.symm), Nat.add_zero] at h1c
            rw [h1c]
            exact hinv.counts u hu
    · rw [if_neg hstat]
      exact hinv

theorem inv_applyOp {st : RentalState} (hinv : RentalInv st) {op : RentalOp}
    (hg : GoodOp st op) : RentalInv (applyOp st op) := by
  cases op with
  | addOp n p l => exact inv_addvehicle hinv rfl hg
  | bookOp u n l => exact inv_createBooking hinv u n l
  | rentOp bid => exact inv_rentVehicle hinv bid
  | retOp bid => exact inv_returnVehicle hinv bid

theorem inv_of_reachU {st : RentalState} (h : ReachU st) : RentalInv st := by
  induction h with
  | init => exact inv_initState
  | step st op h hg ih => exact inv_applyOp ih hg

theorem reach_foldl (ops : List RentalOp) :
    ∀ st, Reach st → Reach (ops.foldl applyOp st) := by
  induction ops with
  | nil => intro st h; exact h
  | cons op rest ih => intro st h; exact ih (applyOp st op) (Reach.step st op h)

theorem reach_runRental (ops : List RentalOp) : Reach (runRental ops) :=
  reach_foldl ops initState Reach.init

/- A full case description of rentVehicle: either it fails with the state
unchanged, or the booking is BOOKED, the vehicle with its plate is
available, and the state is updated as described. -/
theorem rentVehicle_cases {st : RentalState}
    (hpn : ((allVehicles st).map Vehicle.plate_number).Nodup) (bid : Nat) :
    rentVehicle st bid = (false, st) ∨
    ∃ b v₀, findBooking st.booking_records bid = some b ∧
      b.status = BookingStatus.BOOKED ∧
      findByPlate b.plate_number (getVehicles st b.location) = some v₀ ∧
      v₀.vehicleisavailable = true ∧ v₀.plate_number = b.plate_number ∧
      v₀ ∈ getVehicles st b.location ∧
      rentVehicle st bid = (true, { st with
        vehicle_loc_hashmap := setLoc b.location
          (setAvailOnPlate b.plate_number false (getVehicles st b.location))
          st.vehicle_loc_hashmap,
        booking_records := setBookingStatus st.booking_records bid
          BookingStatus.RENTED }) ∧
      allVehicles (rentVehicle st bid).2 =
        setAvailOnPlate b.plate_number false (allVehicles st) ∧
      (∀ l, getVehicles (rentVehicle st bid).2 l =
        if l = b.location then
          setAvailOnPlate b.plate_number false (getVehicles st b.location)
        else getVehicles st l) := by
  unfold rentVehicle
  cases hb : findBooking st.booking_records bid with
  | none => exact Or.inl rfl
  | some b =>
    dsimp only
    by_cases hstat : b.status = BookingStatus.BOOKED
    · rw [if_pos hstat]
      cases hscan : rentScan b.plate_number (getVehicles st b.location) with
      | none => exact Or.inl rfl
      | some vs0 =>
        dsimp only
        right
        have hnd_loc := plates_nodup_loc hpn b.location
        obtain ⟨v₀, hfb, hav, hv₀p, hv₀mem, rfl⟩ := rentScan_success_char hnd_loc hscan
        have hne : getVehicles st b.location ≠ [] := by
          intro h
          rw [h] at hv₀mem
          simp at hv₀mem
        have hlk := lookupLoc_of_ne hne
        obtain ⟨m₁, m₂, heq, h1⟩ := lookupLoc_split hlk
        have hp_in : b.plate_number ∈ (getVehicles st b.location).map Vehicle.plate_number := by
          rw [← hv₀p]
          exact List.mem_map_of_mem _ hv₀mem
        have hall : allVehicles st = (m₁.map Prod.snd).flatten ++
            (getVehicles st b.location ++ (m₂.map Prod.snd).flatten) := by
          rw [allVehicles, heq]
          exact flatten_middle _ _ _ _
        have hset : setLoc b.location
            (setAvailOnPlate b.plate_number false (getVehicles st b.location))
            st.vehicle_loc_hashmap =
            m₁ ++ (b.location,
              setAvailOnPlate b.plate_number false (getVehicles st b.location)) :: m₂ := by
          conv_lhs => rw [heq]
          exact setLoc_append h1 _ _ _
        refine ⟨b, v₀, rfl, hstat, hfb, hav, hv₀p, hv₀mem, rfl, ?_, ?_⟩
        · show ((setLoc _ _ _).map Prod.snd).flatten = _
          rw [hset, flatten_middle, hall]
          exact (setAvail_decompose (by rw [← hall]; exact hpn) hp_in false).symm
        · intro l
          show (lookupLoc (setLoc b.location
            (setAvailOnPlate b.plate_number false (getVehicles st b.location))
            st.vehicle_loc_hashmap) l).getD [] = _
          rw [lookupLoc_setLoc hlk]
          by_cases hl : l = b.location
          · rw [if_pos hl, if_pos hl]
            rfl
          · rw [if_neg hl, if_neg hl]
            rfl
    · rw [if_neg hstat]
      exact Or.inl rfl

/- The analogous case description of returnVehicle. -/
theorem returnVehicle_cases {st : RentalState}
    (hpn : ((allVehicles st).map Vehicle.plate_number).Nodup) (bid : Nat) :
    returnVehicle st bid = (false, st) ∨
    ∃ b v₀, findBooking st.booking_records bid = some b ∧
      b.status = BookingStatus.RENTED ∧
      findByPlate b.plate_number (getVehicles st b.location) = some v₀ ∧
      v₀.plate_number = b.plate_number ∧
      v₀ ∈ getVehicles st b.location ∧
      returnVehicle st bid = (true, { st with
        vehicle_loc_hashmap := setLoc b.location
          (setAvailOnPlate b.plate_number true (getVehicles st b.location))
          st.vehicle_loc_hashmap,
        booking_records := setBookingStatus st.booking_records bid
          BookingStatus.COMPLETED }) ∧
      allVehicles (returnVehicle st bid).2 =
        setAvailOnPlate b.plate_number true (allVehicles st) ∧
      (∀ l, getVehicles (returnVehicle st bid).2 l =
        if l = b.location then
          setAvailOnPlate b.plate_number true (getVehicles st b.location)
        else getVehicles st l) := by
  unfold returnVehicle
  cases hb : findBooking st.booking_records bid with
  | none => exact Or.inl rfl
  | some b =>
    dsimp only
    by_cases hstat : b.status = BookingStatus.RENTED
    · rw [if_pos hstat]
      cases hscan : returnScan b.plate_number (getVehicles st b.location) with
      | none => exact Or.inl rfl
      | some vs0 =>
        dsimp only
        right
        have hnd_loc := plates_nodup_loc hpn b.location
        obtain ⟨v₀, hfb, hv₀p, hv₀mem, rfl⟩ := returnScan_success_char hnd_loc hscan
        have hne : getVehicles st b.location ≠ [] := by
          intro h
          rw [h] at hv₀mem
          simp at hv₀mem
        have hlk := lookupLoc_of_ne hne
        obtain ⟨m₁, m₂, heq, h1⟩ := lookupLoc_split hlk
        have hp_in : b.plate_number ∈ (getVehicles st b.location).map Vehicle.plate_number := by
          rw [← hv₀p]
          exact List.mem_map_of_mem _ hv₀mem
        have hall : allVehicles st = (m₁.map Prod.snd).flatten ++
            (getVehicles st b.location ++ (m₂.map Prod.snd).flatten) := by
          rw [allVehicles, heq]
          exact flatten_middle _ _ _ _
        have hset : setLoc b.location
            (setAvailOnPlate b.plate_number true (getVehicles st b.location))
            st.vehicle_loc_hashmap =
            m₁ ++ (b.location,
              setAvailOnPlate b.plate_number true (getVehicles st b.location)) :: m₂ := by
          conv_lhs => rw [heq]
          exact setLoc_append h1 _ _ _
        refine ⟨b, v₀, rfl, hstat, hfb, hv₀p, hv₀mem, rfl, ?_, ?_⟩
        · show ((setLoc _ _ _).map Prod.snd).flatten = _
          rw [hset, flatten_middle, hall]
          exact (setAvail_decompose (by rw [← hall]; exact hpn) hp_in true).symm
        · intro l
          show (lookupLoc (setLoc b.location
            (setAvailOnPlate b.plate_number true (getVehicles st b.location))
            st.vehicle_loc_hashmap) l).getD [] = _
          rw [lookupLoc_setLoc hlk]
          by_cases hl : l = b.location
          · rw [if_pos hl, if_pos hl]
            rfl
          · rw [if_neg hl, if_neg hl]
            rfl
    · rw [if_neg hstat]
      exact Or.inl rfl

theorem createBooking_vehicle_map (st : RentalState) (u : User) (n loc : String) :
    (createBooking st u n loc).2.vehicle_loc_hashmap = st.vehicle_loc_hashmap := by
  unfold createBooking
  cases bookScan n (getVehicles st loc) <;> rfl

/- The first half of the C1 claim at one state. -/
def C1availIff (st : RentalState) : Prop :=
  ∀ v ∈ allVehicles st,
    (v.vehicleisavailable = false ↔ rentedCount st v.plate_number = 1)

/- The second half of the C1 claim at one transition: an unavailable
vehicle becomes available only through returnVehicle completing the RENTED
booking that references its plate. -/
def C1regain (st : RentalState) (op : RentalOp) : Prop :=
  ∀ p : String,
    (∃ v ∈ allVehicles st, v.plate_number = p ∧ v.vehicleisavailable = false) →
    (∃ v ∈ allVehicles (applyOp st op), v.plate_number = p ∧ v.vehicleisavailable = true) →
    ∃ bid b, op = RentalOp.retOp bid ∧
      findBooking st.booking_records bid = some b ∧ b.plate_number = p ∧
      b.status = BookingStatus.RENTED ∧
      findBooking (applyOp st op).booking_records bid =
        some { b with status := BookingStatus.COMPLETED }

/- The C1 claim, parameterised by the class of reachable states and the
class of admitted transitions. -/
def C1statement (R : RentalState → Prop) (G : RentalState → RentalOp → Prop) : Prop :=
  (∀ st, R st → C1availIff st) ∧ (∀ st op, R st → G st op → C1regain st op)

def TrivOp : RentalState → RentalOp → Prop := fun _ _ => True

def c1cexOps : List RentalOp :=
  [RentalOp.addOp "X" "P" "L", RentalOp.addOp "Car" "P" "L",
   RentalOp.bookOp { username := "u", location := "L" } "X" "L",
   RentalOp.rentOp 1,
   RentalOp.bookOp { username := "u", location := "L" } "Car" "L",
   RentalOp.rentOp 2]

/-- C1 counterexample: the claim quantifies over every sequence of
addvehicle, createBooking, rentVehicle and returnVehicle calls, but
addvehicle does not enforce plate uniqueness; after adding two vehicles
with the same plate and renting both through two bookings, an unavailable
vehicle is referenced by two RENTED bookings, not exactly one. -/
theorem c1_counterexample : ¬ C1statement Reach TrivOp := by
  intro h
  have h1 := h.1 (runRental c1cexOps) (reach_runRental c1cexOps)
  exact absurd h1 (by unfold C1availIff; decide)

/-- C1 (amended): restricted to runs in which every added vehicle carries
a plate number distinct from all plates already in the system, a vehicle
is unavailable iff exactly one stored booking references its plate number
with status RENTED, and an unavailable vehicle becomes available only via
the returnVehicle transition that completes the RENTED booking referencing
its plate. -/
theorem c1_rental_invariant : C1statement ReachU GoodOp := by
  constructor
  · intro st h v hv
    have hc := (inv_of_reachU h).counts v hv
    constructor
    · intro hfalse
      rw [hc, hfalse]
      rfl
    · intro h1
      cases hav : v.vehicleisavailable with
      | false => rfl
      | true =>
        rw [hav, if_pos rfl] at hc
        rw [hc] at h1
        cases h1
  · intro st op h hg p hvU hvA
    have hinv := inv_of_reachU h
    obtain ⟨v, hv, hvp, hvF⟩ := hvU
    obtain ⟨v', hv', hvp', hvT⟩ := hvA
    have hinj : ∀ w ∈ allVehicles st, w.plate_number = p → w = v := by
      intro w hw hwp
      exact plate_inj hinv.plates_nodup hw hv (hwp.trans hvp.symm)
    cases op with
    | addOp n q l =>
      exfalso
      have hperm := vehicles_addvehicle_map_perm
        { vehicle_name := n, plate_number := q, vehicle_location := l,
          vehicleisavailable := true } st.vehicle_loc_hashmap
      rcases List.mem_append.mp (hperm.mem_iff.mp hv') with hmem | hmem
      · have := hinj v' hmem hvp'
        subst this
        rw [hvF] at hvT
        cases hvT
      · rcases List.mem_singleton.mp hmem with rfl
        apply hg
        have hq : q = p := hvp'
        rw [hq, ← hvp]
        exact List.mem_map_of_mem _ hv
    | bookOp u n l =>
      exfalso
      have hmap : allVehicles (applyOp st (RentalOp.bookOp u n l)) = allVehicles st := by
        show allVehicles (createBooking st u n l).2 = allVehicles st
        rw [allVehicles, allVehicles, createBooking_vehicle_map]
      rw [hmap] at hv'
      have := hinj v' hv' hvp'
      subst this
      rw [hvF] at hvT
      cases hvT
    | rentOp bid =>
      exfalso
      rcases rentVehicle_cases hinv.plates_nodup bid with hcase | hcase
      · have hst : (rentVehicle st bid).2 = st := by rw [hcase]
        rw [show allVehicles (applyOp st (RentalOp.rentOp bid)) = allVehicles st from
          by rw [applyOp, hst]] at hv'
        have := hinj v' hv' hvp'
        subst this
        rw [hvF] at hvT
        cases hvT
      · obtain ⟨b, v₀, -, -, -, -, -, -, -, hall', -⟩ := hcase
        rw [show allVehicles (applyOp st (RentalOp.rentOp bid)) =
          setAvailOnPlate b.plate_number false (allVehicles st) from hall'] at hv'
        obtain ⟨u, hu, rfl⟩ := List.mem_map.mp hv'
        by_cases hup : u.plate_number = b.plate_number
        · rw [if_pos hup] at hvT
          cases hvT
        · rw [if_neg hup] at hvp' hvT
          have := hinj u hu hvp'
          subst this
          rw [hvF] at hvT
          cases hvT
    | retOp bid =>
      rcases returnVehicle_cases hinv.plates_nodup bid with hcase | hcase
      · exfalso
        have hst : (returnVehicle st bid).2 = st := by rw [hcase]
        rw [show allVehicles (applyOp st (RentalOp.retOp bid)) = allVehicles st from
          by rw [applyOp, hst]] at hv'
        have := hinj v' hv' hvp'
        subst this
        rw [hvF] at hvT
        cases hvT
      · obtain ⟨b, v₀, hbfind, hstat, hfb, hv₀p, hv₀mem, heqR, hall', hget⟩ := hcase
        have hpb : b.plate_number = p := by
          rw [show allVehicles (applyOp st (RentalOp.retOp bid)) =
            setAvailOnPlate b.plate_number true (allVehicles st) from hall'] at hv'
          obtain ⟨u, hu, rfl⟩ := List.mem_map.mp hv'
          by_cases hup : u.plate_number = b.plate_number
          · rw [if_pos hup] at hvp'
            rw [← hvp']
            rw [show ({ u with vehicleisavailable := true } : Vehicle).plate_number =
              u.plate_number from rfl]
            exact hup.symm
          · exfalso
            rw [if_neg hup] at hvp' hvT
            have := hinj u hu hvp'
            subst this
            rw [hvF] at hvT
            cases hvT
        refine ⟨bid, b, rfl, hbfind, hpb, hstat, ?_⟩
        have hrec : (returnVehicle st bid).2.booking_records =
            setBookingStatus st.booking_records bid BookingStatus.COMPLETED := by
          rw [heqR]
        show findBooking (returnVehicle st bid).2.booking_records bid = _
        rw [hrec, findBooking_setBookingStatus_self, hbfind]
        rfl

theorem c1_rental_invariant_witness :
    C1availIff (applyOp (applyOp (applyOp initState
      (RentalOp.addOp "Car" "KA01" "Bangalore"))
      (RentalOp.bookOp { username := "prateek", location := "Bangalore" } "Car" "Bangalore"))
      (RentalOp.rentOp 1)) := by
  have h1 : ReachU (applyOp initState (RentalOp.addOp "Car" "KA01" "Bangalore")) :=
    ReachU.step _ _ ReachU.init (by unfold GoodOp; decide)
  have h2 : ReachU (applyOp (applyOp initState (RentalOp.addOp "Car" "KA01" "Bangalore"))
      (RentalOp.bookOp { username := "prateek", location := "Bangalore" }
        "Car" "Bangalore")) :=
    ReachU.step _ _ h1 trivial
  have h3 : ReachU (applyOp (applyOp (applyOp initState
      (RentalOp.addOp "Car" "KA01" "Bangalore"))
      (RentalOp.bookOp { username := "prateek", location := "Bangalore" } "Car" "Bangalore"))
      (RentalOp.rentOp 1)) :=
    ReachU.step _ _ h2 trivial
  exact c1_rental_invariant.1 _ h3

theorem createBooking_eq_of {st : RentalState} {n loc : String} {v : Vehicle}
    (hscan : bookScan n (getVehicles st loc) = some v) (u : User) :
    createBooking st u n loc = (some st.booking_counter, { st with
      booking_records := st.booking_records ++
        [{ booking_id := st.booking_counter, username := u.username,
           vehicle_name := v.vehicle_name, plate_number := v.plate_number,
           location := v.vehicle_location, status := BookingStatus.BOOKED }],
      booking_counter := st.booking_counter + 1 }) := by
  unfold createBooking
  rw [hscan]

theorem rentVehicle_eq_of {st : RentalState} {bid : Nat} {b : Booking}
    (hb : findBooking st.booking_records bid = some b)
    (hstat : b.status = BookingStatus.BOOKED) {vs' : List Vehicle}
    (hscan : rentScan b.plate_number (getVehicles st b.location) = some vs') :
    rentVehicle st bid = (true, { st with
      vehicle_loc_hashmap := setLoc b.location vs' st.vehicle_loc_hashmap,
      booking_records := setBookingStatus st.booking_records bid
        BookingStatus.RENTED }) := by
  unfold rentVehicle
  rw [hb]
  dsimp only
  rw [if_pos hstat, hscan]

theorem returnVehicle_eq_of {st : RentalState} {bid : Nat} {b : Booking}
    (hb : findBooking st.booking_records bid = some b)
    (hstat : b.status = BookingStatus.RENTED) {vs' : List Vehicle}
    (hscan : returnScan b.plate_number (getVehicles st b.location) = some vs') :
    returnVehicle st bid = (true, { st with
      vehicle_loc_hashmap := setLoc b.location vs' st.vehicle_loc_hashmap,
      booking_records := setBookingStatus st.booking_records bid
        BookingStatus.COMPLETED }) := by
  unfold returnVehicle
  rw [hb]
  dsimp only
  rw [if_pos hstat, hscan]

theorem rentScan_some_of_mem {p : String} {vs : List Vehicle}
    (hnd : (vs.map Vehicle.plate_number).Nodup) {v : Vehicle}
    (hv : v ∈ vs) (hvp : v.plate_number = p) (hva : v.vehicleisavailable = true) :
    rentScan p vs = some (setAvailOnPlate p false vs) := by
  rw [rentScan_eq_of_nodup hnd]
  cases hfb : findByPlate p vs with
  | none => exact absurd hvp (findByPlate_none_iff.mp hfb v hv)
  | some w =>
    obtain ⟨hwmem, hwp⟩ := findByPlate_some hfb
    have hwv : w = v := List.inj_on_of_nodup_map hnd hwmem hv (hwp.trans hvp.symm)
    subst hwv
    dsimp only
    rw [if_pos hva]

theorem returnScan_some_of_mem {p : String} {vs : List Vehicle}
    (hnd : (vs.map Vehicle.plate_number).Nodup) {v : Vehicle}
    (hv : v ∈ vs) (hvp : v.plate_number = p) :
    returnScan p vs = some (setAvailOnPlate p true vs) := by
  rw [returnScan_eq_of_nodup hnd]
  cases hfb : findByPlate p vs with
  | none => exact absurd hvp (findByPlate_none_iff.mp hfb v hv)
  | some w => rfl

theorem setAvail_roundtrip {p : String} {vs : List Vehicle}
    (hnd : (vs.map Vehicle.plate_number).Nodup) {v : Vehicle}
    (hv : v ∈ vs) (hvp : v.plate_number = p) (hva : v.vehicleisavailable = true) :
    setAvailOnPlate p true (setAvailOnPlate p false vs) = vs := by
  unfold setAvailOnPlate
  rw [List.map_map]
  apply map_id_of_eq
  intro w hw
  show (fun x => if x.plate_number = p then { x with vehicleisavailable := true } else x)
    ((fun x => if x.plate_number = p then { x with vehicleisavailable := false } else x) w) = w
  by_cases hwp : w.plate_number = p
  · have hwv : w = v := List.inj_on_of_nodup_map hnd hw hv (hwp.trans hvp.symm)
    subst hwv
    dsimp only
    rw [if_pos hwp,
      if_pos (show ({ w with vehicleisavailable := false } : Vehicle).plate_number = p
        from hwp)]
    obtain ⟨a, b2, c, d⟩ := w
    have hd : d = true := hva
    rw [hd]
  · dsimp only
    rw [if_neg hwp, if_neg hwp]

/-- C2: createBooking scans the location's vehicle list in order for the
first vehicle matching the requested name with isAvailable true, books it
with status BOOKED under the next id and returns that id, returns none
with no state change when no such vehicle exists, and never changes any
vehicle's isAvailable field. -/
theorem c2_createBooking (st : RentalState) (u : User) (n loc : String) :
    createBooking st u n loc = createBookingSpec st u n loc ∧
    (createBooking st u n loc).2.vehicle_loc_hashmap = st.vehicle_loc_hashmap ∧
    (∀ l, ((getVehicles (createBooking st u n loc).2 l).map Vehicle.vehicleisavailable) =
      (getVehicles st l).map Vehicle.vehicleisavailable) := by
  refine ⟨?_, createBooking_vehicle_map st u n loc, ?_⟩
  · unfold createBooking createBookingSpec
    rw [bookScan_eq_firstAvailableMatch]
  · intro l
    show ((lookupLoc (createBooking st u n loc).2.vehicle_loc_hashmap l).getD []).map _ = _
    rw [createBooking_vehicle_map]
    rfl

/-- C3: under the spec's assumption that a plate number identifies a
vehicle (dict keys unique, plates unique), rentVehicle behaves exactly as
specified: failure with untouched state when the booking is absent, not
BOOKED, the located vehicle is unavailable, or no vehicle carries the
plate; otherwise the located vehicle is made unavailable, the booking
becomes RENTED and the call succeeds.  A second rent on the same booking
always fails and leaves all booking and vehicle state unchanged. -/
theorem c3_rentVehicle (st : RentalState) (booking_id : Nat) (h : PlatesUnique st) :
    rentVehicle st booking_id = rentVehicleSpec st booking_id ∧
    rentVehicle (rentVehicle st booking_id).2 booking_id =
      (false, (rentVehicle st booking_id).2) := by
  obtain ⟨hk, hpn⟩ := h
  constructor
  · unfold rentVehicle rentVehicleSpec
    cases hb : findBooking st.booking_records booking_id with
    | none => rfl
    | some b =>
      dsimp only
      by_cases hstat : b.status = BookingStatus.BOOKED
      · rw [if_pos hstat, if_pos hstat]
        rw [rentScan_eq_of_nodup (plates_nodup_loc hpn b.location)]
        cases hfb : findByPlate b.plate_number (getVehicles st b.location) with
        | none => rfl
        | some v₀ =>
          dsimp only
          by_cases hav : v₀.vehicleisavailable = true
          · rw [if_pos hav, if_pos hav]
            obtain ⟨hmem, hp⟩ := findByPlate_some hfb
            have hne : getVehicles st b.location ≠ [] := by
              intro hnil
              rw [hnil] at hmem
              simp at hmem
            have hlk := lookupLoc_of_ne hne
            obtain ⟨m₁, m₂, heq, h1⟩ := lookupLoc_split hlk
            have h2 : ∀ e ∈ m₂, e.1 ≠ b.location :=
              keys_middle_not_right (by rw [← heq]; exact hk)
            have hcode : setLoc b.location
                (setAvailOnPlate b.plate_number false (getVehicles st b.location))
                st.vehicle_loc_hashmap =
                m₁ ++ (b.location,
                  setAvailOnPlate b.plate_number false (getVehicles st b.location)) :: m₂ := by
              conv_lhs => rw [heq]
              exact setLoc_append h1 _ _ _
            have hspec : (setPlateAvailability st b.location b.plate_number
                false).vehicle_loc_hashmap =
                m₁ ++ (b.location,
                  setAvailOnPlate b.plate_number false (getVehicles st b.location)) :: m₂ := by
              show st.vehicle_loc_hashmap.map _ = _
              conv_lhs => rw [heq]
              exact mapEntries_append h1 h2 _ _
            dsimp only
            rw [hcode, ← hspec]
            rfl
          · rw [if_neg hav, if_neg hav]
      · rw [if_neg hstat, if_neg hstat]
  · cases hb : findBooking st.booking_records booking_id with
    | none =>
      have h1 : rentVehicle st booking_id = (false, st) := by
        unfold rentVehicle
        rw [hb]
      rw [h1]
      exact h1
    | some b =>
      by_cases hstat : b.status = BookingStatus.BOOKED
      · cases hscan : rentScan b.plate_number (getVehicles st b.location) with
        | none =>
          have h1 : rentVehicle st booking_id = (false, st) := by
            unfold rentVehicle
            rw [hb]
            dsimp only
            rw [if_pos hstat, hscan]
          rw [h1]
          exact h1
        | some vs' =>
          have h1 := rentVehicle_eq_of hb hstat hscan
          rw [h1]
          have h2 : findBooking (setBookingStatus st.booking_records booking_id
              BookingStatus.RENTED) booking_id =
              some { b with status := BookingStatus.RENTED } := by
            rw [findBooking_setBookingStatus_self, hb]
            rfl
          unfold rentVehicle
          rw [show findBooking ((true, { st with
              vehicle_loc_hashmap := setLoc b.location vs' st.vehicle_loc_hashmap,
              booking_records := setBookingStatus st.booking_records booking_id
                BookingStatus.RENTED }) : Bool × RentalState).2.booking_records booking_id =
            some { b with status := BookingStatus.RENTED } from h2]
          dsimp only
          rw [if_neg (fun hc => BookingStatus.noConfusion hc)]
      · have h1 : rentVehicle st booking_id = (false, st) := by
          unfold rentVehicle
          rw [hb]
          dsimp only
          rw [if_neg hstat]
        rw [h1]
        exact h1

/-- C4: under the plate-uniqueness assumption, returnVehicle behaves
exactly as specified: failure with untouched state when the booking is
absent or not RENTED (in particular on a booking still BOOKED), otherwise
the vehicle carrying the booking's plate is located with no availability
precondition, made available, and the booking is COMPLETED. -/
theorem c4_returnVehicle (st : RentalState) (booking_id : Nat) (h : PlatesUnique st) :
    returnVehicle st booking_id = returnVehicleSpec st booking_id ∧
    (∀ b, findBooking st.booking_records booking_id = some b →
      b.status = BookingStatus.BOOKED → returnVehicle st booking_id = (false, st)) := by
  obtain ⟨hk, hpn⟩ := h
  constructor
  · unfold returnVehicle returnVehicleSpec
    cases hb : findBooking st.booking_records booking_id with
    | none => rfl
    | some b =>
      dsimp only
      by_cases hstat : b.status = BookingStatus.RENTED
      · rw [if_pos hstat, if_pos hstat]
        rw [returnScan_eq_of_nodup (plates_nodup_loc hpn b.location)]
        cases hfb : findByPlate b.plate_number (getVehicles st b.location) with
        | none => rfl
        | some v₀ =>
          rw [show Option.map
              (fun _ => setAvailOnPlate b.plate_number true (getVehicles st b.location))
              (some v₀) =
              some (setAvailOnPlate b.plate_number true (getVehicles st b.location))
            from rfl]
          dsimp only
          obtain ⟨hmem, hp⟩ := findByPlate_some hfb
          have hne : getVehicles st b.location ≠ [] := by
            intro hnil
            rw [hnil] at hmem
            simp at hmem
          have hlk := lookupLoc_of_ne hne
          obtain ⟨m₁, m₂, heq, h1⟩ := lookupLoc_split hlk
          have h2 : ∀ e ∈ m₂, e.1 ≠ b.location :=
            keys_middle_not_right (by rw [← heq]; exact hk)
          have hcode : setLoc b.location
              (setAvailOnPlate b.plate_number true (getVehicles st b.location))
              st.vehicle_loc_hashmap =
              m₁ ++ (b.location,
                setAvailOnPlate b.plate_number true (getVehicles st b.location)) :: m₂ := by
            conv_lhs => rw [heq]
            exact setLoc_append h1 _ _ _
          have hspec : (setPlateAvailability st b.location b.plate_number
              true).vehicle_loc_hashmap =
              m₁ ++ (b.location,
                setAvailOnPlate b.plate_number true (getVehicles st b.location)) :: m₂ := by
            show st.vehicle_loc_hashmap.map _ = _
            conv_lhs => rw [heq]
            exact mapEntries_append h1 h2 _ _
          rw [hcode, ← hspec]
          rfl
      · rw [if_neg hstat, if_neg hstat]
  · intro b hb hstat
    unfold returnVehicle
    rw [hb]
    dsimp only
    rw [if_neg (by rw [hstat]; exact fun hc => BookingStatus.noConfusion hc)]

theorem c3_rentVehicle_witness :
    rentVehicle (applyOp (applyOp initState (RentalOp.addOp "Car" "KA01" "Bangalore"))
      (RentalOp.bookOp { username := "prateek", location := "Bangalore" }
        "Car" "Bangalore")) 1 =
    rentVehicleSpec (applyOp (applyOp initState (RentalOp.addOp "Car" "KA01" "Bangalore"))
      (RentalOp.bookOp { username := "prateek", location := "Bangalore" }
        "Car" "Bangalore")) 1 :=
  (c3_rentVehicle _ 1 (by unfold PlatesUnique; decide)).1

theorem c4_returnVehicle_witness :
    returnVehicle (applyOp (applyOp (applyOp initState
      (RentalOp.addOp "Car" "KA01" "Bangalore"))
      (RentalOp.bookOp { username := "prateek", location := "Bangalore" } "Car" "Bangalore"))
      (RentalOp.rentOp 1)) 1 =
    returnVehicleSpec (applyOp (applyOp (applyOp initState
      (RentalOp.addOp "Car" "KA01" "Bangalore"))
      (RentalOp.bookOp { username := "prateek", location := "Bangalore" } "Car" "Bangalore"))
      (RentalOp.rentOp 1)) 1 :=
  (c4_returnVehicle _ 1 (by unfold PlatesUnique; decide)).1

/- The C5 claim at one class of states: whenever an available vehicle of
the requested name exists at the location, createBooking succeeds with
some id, rent on that id succeeds, returnVehicle on it then succeeds, the
booked vehicle (the first name-matching available one) ends available,
and the booking ends COMPLETED. -/
def C5statement (R : RentalState → Prop) : Prop :=
  ∀ st, R st → ∀ (u : User) (n loc : String),
    (∃ v ∈ getVehicles st loc, v.vehicle_name = n ∧ v.vehicleisavailable = true) →
    ∃ bid v,
      (createBooking st u n loc).1 = some bid ∧
      bookScan n (getVehicles st loc) = some v ∧
      (rentVehicle (createBooking st u n loc).2 bid).1 = true ∧
      (returnVehicle (rentVehicle (createBooking st u n loc).2 bid).2 bid).1 = true ∧
      v ∈ getVehicles
        (returnVehicle (rentVehicle (createBooking st u n loc).2 bid).2 bid).2 loc ∧
      v.vehicleisavailable = true ∧
      ∃ bfin, findBooking
          (returnVehicle (rentVehicle (createBooking st u n loc).2 bid).2 bid).2.booking_records
          bid = some bfin ∧ bfin.status = BookingStatus.COMPLETED

def c5cexOps : List RentalOp :=
  [RentalOp.addOp "X" "P" "L", RentalOp.addOp "Car" "P" "L",
   RentalOp.bookOp { username := "u", location := "L" } "X" "L",
   RentalOp.rentOp 1]

/-- C5 counterexample: the claim quantifies over every reachable state,
but with two same-plate vehicles at one location (one already rented
through another booking) the book-rent-return sequence on the second
vehicle succeeds at every step yet returns the wrong vehicle: rent
disables the booked vehicle while returnVehicle re-enables the other one,
so the booked vehicle does not end available. -/
theorem c5_counterexample : ¬ C5statement Reach := by
  intro h
  obtain ⟨bid, v, h1, h2, h3, h4, h5, h6, h7⟩ :=
    h (runRental c5cexOps) (reach_runRental c5cexOps)
      { username := "u", location := "L" } "Car" "L"
      ⟨(⟨"Car", "P", "L", true⟩ : Vehicle), by decide, rfl, rfl⟩
  have hX : (createBooking (runRental c5cexOps)
      { username := "u", location := "L" } "Car" "L").1 = some 2 := by decide
  have hbid : some bid = some 2 := h1.symm.trans hX
  injection hbid with hbid
  subst hbid
  have hV : bookScan "Car" (getVehicles (runRental c5cexOps) "L") =
      some (⟨"Car", "P", "L", true⟩ : Vehicle) := by decide
  have hv : some v = some (⟨"Car", "P", "L", true⟩ : Vehicle) := h2.symm.trans hV
  injection hv with hv
  subst hv
  exact absurd h5 (by decide)

/-- C5 (amended): restricted to plate-fresh runs, whenever an available
vehicle matching the requested name exists at the location, createBooking
succeeds, rent on the returned id succeeds, returnVehicle then succeeds,
the booked vehicle ends available and the booking COMPLETED; concretely,
with the single vehicle "Car"/"KA01" at "Bangalore", booking returns id 1,
rent(1) succeeds leaving the vehicle unavailable, and returnVehicle(1)
succeeds leaving it available with the booking COMPLETED. -/
theorem c5_book_rent_return :
    C5statement ReachU ∧
    ((createBooking (applyOp initState (RentalOp.addOp "Car" "KA01" "Bangalore"))
        { username := "prateek", location := "Bangalore" } "Car" "Bangalore").1 = some 1 ∧
      (rentVehicle (applyOp (applyOp initState (RentalOp.addOp "Car" "KA01" "Bangalore"))
        (RentalOp.bookOp { username := "prateek", location := "Bangalore" }
          "Car" "Bangalore")) 1).1 = true ∧
      getVehicles (applyOp (applyOp (applyOp initState
        (RentalOp.addOp "Car" "KA01" "Bangalore"))
        (RentalOp.bookOp { username := "prateek", location := "Bangalore" }
          "Car" "Bangalore")) (RentalOp.rentOp 1)) "Bangalore" =
        [⟨"Car", "KA01", "Bangalore", false⟩] ∧
      (returnVehicle (applyOp (applyOp (applyOp initState
        (RentalOp.addOp "Car" "KA01" "Bangalore"))
        (RentalOp.bookOp { username := "prateek", location := "Bangalore" }
          "Car" "Bangalore")) (RentalOp.rentOp 1)) 1).1 = true ∧
      getVehicles (applyOp (applyOp (applyOp (applyOp initState
        (RentalOp.addOp "Car" "KA01" "Bangalore"))
        (RentalOp.bookOp { username := "prateek", location := "Bangalore" }
          "Car" "Bangalore")) (RentalOp.rentOp 1)) (RentalOp.retOp 1)) "Bangalore" =
        [⟨"Car", "KA01", "Bangalore", true⟩] ∧
      findBooking (applyOp (applyOp (applyOp (applyOp initState
        (RentalOp.addOp "Car" "KA01" "Bangalore"))
        (RentalOp.bookOp { username := "prateek", location := "Bangalore" }
          "Car" "Bangalore")) (RentalOp.rentOp 1)) (RentalOp.retOp 1)).booking_records 1 =
        some ⟨1, "prateek", "Car", "KA01", "Bangalore", BookingStatus.COMPLETED⟩) := by
  constructor
  · intro st h u n loc hprem
    have hinv := inv_of_reachU h
    obtain ⟨v, hvmem, hvname, hvavail⟩ := hprem
    obtain ⟨v', hscan⟩ := bookScan_isSome_of_mem hvmem hvname hvavail
    obtain ⟨hv'mem, hv'name, hv'avail⟩ := bookScan_some hscan
    have hv'loc : v'.vehicle_location = loc := loc_of_mem_getVehicles hinv.loc_correct hv'mem
    have hv'mem' : v' ∈ getVehicles st v'.vehicle_location := by
      rw [hv'loc]
      exact hv'mem
    have h1 : createBooking st u n loc = (some st.booking_counter, { st with
        booking_records := st.booking_records ++
          [{ booking_id := st.booking_counter, username := u.username,
             vehicle_name := v'.vehicle_name, plate_number := v'.plate_number,
             location := v'.vehicle_location, status := BookingStatus.BOOKED }],
        booking_counter := st.booking_counter + 1 }) := createBooking_eq_of hscan u
    have hfind1 : findBooking (st.booking_records ++
        [{ booking_id := st.booking_counter, username := u.username,
           vehicle_name := v'.vehicle_name, plate_number := v'.plate_number,
           location := v'.vehicle_location, status := BookingStatus.BOOKED }])
        st.booking_counter =
        some { booking_id := st.booking_counter, username := u.username,
               vehicle_name := v'.vehicle_name, plate_number := v'.plate_number,
               location := v'.vehicle_location, status := BookingStatus.BOOKED } := by
      rw [findBooking_append_left (fun x hx => Nat.ne_of_lt (hinv.ids_lt x hx)),
        findBooking, if_pos rfl]
    have hndloc : ((getVehicles st v'.vehicle_location).map Vehicle.plate_number).Nodup :=
      plates_nodup_loc hinv.plates_nodup v'.vehicle_location
    have hscan2 : rentScan v'.plate_number (getVehicles st v'.vehicle_location) =
        some (setAvailOnPlate v'.plate_number false (getVehicles st v'.vehicle_location)) :=
      rentScan_some_of_mem hndloc hv'mem' rfl hv'avail
    have h2 : rentVehicle ({ st with
        booking_records := st.booking_records ++
          [{ booking_id := st.booking_counter, username := u.username,
             vehicle_name := v'.vehicle_name, plate_number := v'.plate_number,
             location := v'.vehicle_location, status := BookingStatus.BOOKED }],
        booking_counter := st.booking_counter + 1 } : RentalState) st.booking_counter =
        (true, { st with
          vehicle_loc_hashmap := setLoc v'.vehicle_location
            (setAvailOnPlate v'.plate_number false (getVehicles st v'.vehicle_location))
            st.vehicle_loc_hashmap,
          booking_records := setBookingStatus (st.booking_records ++
            [{ booking_id := st.booking_counter, username := u.username,
               vehicle_name := v'.vehicle_name, plate_number := v'.plate_number,
               location := v'.vehicle_location, status := BookingStatus.BOOKED }])
            st.booking_counter BookingStatus.RENTED,
          booking_counter := st.booking_counter + 1 }) :=
      rentVehicle_eq_of hfind1 rfl hscan2
    have hne : getVehicles st v'.vehicle_location ≠ [] := by
      intro hnil
      rw [hnil] at hv'mem'
      simp at hv'mem'
    have hlkloc := lookupLoc_of_ne hne
    have hget2 : getVehicles ({ st with
        vehicle_loc_hashmap := setLoc v'.vehicle_location
          (setAvailOnPlate v'.plate_number false (getVehicles st v'.vehicle_location))
          st.vehicle_loc_hashmap,
        booking_records := setBookingStatus (st.booking_records ++
          [{ booking_id := st.booking_counter, username := u.username,
             vehicle_name := v'.vehicle_name, plate_number := v'.plate_number,
             location := v'.vehicle_location, status := BookingStatus.BOOKED }])
          st.booking_counter BookingStatus.RENTED,
        booking_counter := st.booking_counter + 1 } : RentalState) v'.vehicle_location =
        setAvailOnPlate v'.plate_number false (getVehicles st v'.vehicle_location) := by
      show (lookupLoc (setLoc v'.vehicle_location
        (setAvailOnPlate v'.plate_number false (getVehicles st v'.vehicle_location))
        st.vehicle_loc_hashmap) v'.vehicle_location).getD [] = _
      rw [lookupLoc_setLoc hlkloc, if_pos rfl]
      rfl
    have hfind2 : findBooking (setBookingStatus (st.booking_records ++
        [{ booking_id := st.booking_counter, username := u.username,
           vehicle_name := v'.vehicle_name, plate_number := v'.plate_number,
           location := v'.vehicle_location, status := BookingStatus.BOOKED }])
        st.booking_counter BookingStatus.RENTED) st.booking_counter =
        some { booking_id := st.booking_counter, username := u.username,
               vehicle_name := v'.vehicle_name, plate_number := v'.plate_number,
               location := v'.vehicle_location, status := BookingStatus.RENTED } := by
      rw [findBooking_setBookingStatus_self, hfind1]
      rfl
    have hndX : ((setAvailOnPlate v'.plate_number false
        (getVehicles st v'.vehicle_location)).map Vehicle.plate_number).Nodup := by
      rw [setAvailOnPlate_plates]
      exact hndloc
    have hfmem : (if v'.plate_number = v'.plate_number then
        ({ v' with vehicleisavailable := false } : Vehicle) else v') ∈
        setAvailOnPlate v'.plate_number false (getVehicles st v'.vehicle_location) :=
      List.mem_map_of_mem _ hv'mem'
    have hfplate : (if v'.plate_number = v'.plate_number then
        ({ v' with vehicleisavailable := false } : Vehicle) else v').plate_number =
        v'.plate_number := by
      rw [if_pos rfl]
    have hscan3 : returnScan v'.plate_number
        (setAvailOnPlate v'.plate_number false (getVehicles st v'.vehicle_location)) =
        some (setAvailOnPlate v'.plate_number true
          (setAvailOnPlate v'.plate_number false (getVehicles st v'.vehicle_location))) :=
      returnScan_some_of_mem hndX hfmem hfplate
    have hscan3' : returnScan v'.plate_number (getVehicles ({ st with
        vehicle_loc_hashmap := setLoc v'.vehicle_location
          (setAvailOnPlate v'.plate_number false (getVehicles st v'.vehicle_location))
          st.vehicle_loc_hashmap,
        booking_records := setBookingStatus (st.booking_records ++
          [{ booking_id := st.booking_counter, username := u.username,
             vehicle_name := v'.vehicle_name, plate_number := v'.plate_number,
             location := v'.vehicle_location, status := BookingStatus.BOOKED }])
          st.booking_counter BookingStatus.RENTED,
        booking_counter := st.booking_counter + 1 } : RentalState) v'.vehicle_location) =
        some (setAvailOnPlate v'.plate_number true
          (setAvailOnPlate v'.plate_number false (getVehicles st v'.vehicle_location))) := by
      rw [hget2]
      exact hscan3
    have h3 : returnVehicle ({ st with
        vehicle_loc_hashmap := setLoc v'.vehicle_location
          (setAvailOnPlate v'.plate_number false (getVehicles st v'.vehicle_location))
          st.vehicle_loc_hashmap,
        booking_records := setBookingStatus (st.booking_records ++
          [{ booking_id := st.booking_counter, username := u.username,
             vehicle_name := v'.vehicle_name, plate_number := v'.plate_number,
             location := v'.vehicle_location, status := BookingStatus.BOOKED }])
          st.booking_counter BookingStatus.RENTED,
        booking_counter := st.booking_counter + 1 } : RentalState) st.booking_counter =
        (true, { st with
          vehicle_loc_hashmap := setLoc v'.vehicle_location
            (setAvailOnPlate v'.plate_number true
              (setAvailOnPlate v'.plate_number false (getVehicles st v'.vehicle_location)))
            (setLoc v'.vehicle_location
              (setAvailOnPlate v'.plate_number false (getVehicles st v'.vehicle_location))
              st.vehicle_loc_hashmap),
          booking_records := setBookingStatus (setBookingStatus (st.booking_records ++
            [{ booking_id := st.booking_counter, username := u.username,
               vehicle_name := v'.vehicle_name, plate_number := v'.plate_number,
               location := v'.vehicle_location, status := BookingStatus.BOOKED }])
            st.booking_counter BookingStatus.RENTED)
            st.booking_counter BookingStatus.COMPLETED,
          booking_counter := st.booking_counter + 1 }) :=
      returnVehicle_eq_of hfind2 rfl hscan3'
    have hroundtrip : setAvailOnPlate v'.plate_number true
        (setAvailOnPlate v'.plate_number false (getVehicles st v'.vehicle_location)) =
        getVehicles st v'.vehicle_location :=
      setAvail_roundtrip hndloc hv'mem' rfl hv'avail
    have hlk2 : lookupLoc (setLoc v'.vehicle_location
        (setAvailOnPlate v'.plate_number false (getVehicles st v'.vehicle_location))
        st.vehicle_loc_hashmap) v'.vehicle_location =
        some (setAvailOnPlate v'.plate_number false (getVehicles st v'.vehicle_location)) := by
      rw [lookupLoc_setLoc hlkloc, if_pos rfl]
    have hfinalget : getVehicles ({ st with
        vehicle_loc_hashmap := setLoc v'.vehicle_location
          (setAvailOnPlate v'.plate_number true
            (setAvailOnPlate v'.plate_number false (getVehicles st v'.vehicle_location)))
          (setLoc v'.vehicle_location
            (setAvailOnPlate v'.plate_number false (getVehicles st v'.vehicle_location))
            st.vehicle_loc_hashmap),
        booking_records := setBookingStatus (setBookingStatus (st.booking_records ++
          [{ booking_id := st.booking_counter, username := u.username,
             vehicle_name := v'.vehicle_name, plate_number := v'.plate_number,
             location := v'.vehicle_location, status := BookingStatus.BOOKED }])
          st.booking_counter BookingStatus.RENTED)
          st.booking_counter BookingStatus.COMPLETED,
        booking_counter := st.booking_counter + 1 } : RentalState) loc =
        getVehicles st loc := by
      show (lookupLoc (setLoc v'.vehicle_location _ _) loc).getD [] = _
      rw [lookupLoc_setLoc hlk2, if_pos hv'loc.symm]
      show setAvailOnPlate v'.plate_number true
        (setAvailOnPlate v'.plate_number false (getVehicles st v'.vehicle_location)) = _
      rw [hroundtrip, hv'loc]
    have hfind3 : findBooking (setBookingStatus (setBookingStatus (st.booking_records ++
        [{ booking_id := st.booking_counter, username := u.username,
           vehicle_name := v'.vehicle_name, plate_number := v'.plate_number,
           location := v'.vehicle_location, status := BookingStatus.BOOKED }])
        st.booking_counter BookingStatus.RENTED)
        st.booking_counter BookingStatus.COMPLETED) st.booking_counter =
        some { booking_id := st.booking_counter, username := u.username,
               vehicle_name := v'.vehicle_name, plate_number := v'.plate_number,
               location := v'.vehicle_location, status := BookingStatus.COMPLETED } := by
      rw [findBooking_setBookingStatus_self, hfind2]
      rfl
    refine ⟨st.booking_counter, v', ?_, hscan, ?_, ?_, ?_, hv'avail, ?_⟩
    · rw [h1]
    · rw [h1]
      dsimp only
      rw [h2]
    · rw [h1]
      dsimp only
      rw [h2]
      dsimp only
      rw [h3]
    · rw [h1]
      dsimp only
      rw [h2]
      dsimp only
      rw [h3]
      dsimp only
      rw [hfinalget]
      exact hv'mem
    · rw [h1]
      dsimp only
      rw [h2]
      dsimp only
      rw [h3]
      dsimp only
      exact ⟨_, hfind3, rfl⟩
  · refine ⟨by decide, by decide, by decide, by decide, by decide, by decide⟩

theorem c5_book_rent_return_witness :
    ∃ bid v,
      (createBooking (applyOp initState (RentalOp.addOp "Car" "KA01" "Bangalore"))
        { username := "prateek", location := "Bangalore" } "Car" "Bangalore").1 = some bid ∧
      bookScan "Car" (getVehicles (applyOp initState
        (RentalOp.addOp "Car" "KA01" "Bangalore")) "Bangalore") = some v ∧
      (rentVehicle (createBooking (applyOp initState
        (RentalOp.addOp "Car" "KA01" "Bangalore"))
        { username := "prateek", location := "Bangalore" } "Car" "Bangalore").2 bid).1 =
        true ∧
      (returnVehicle (rentVehicle (createBooking (applyOp initState
        (RentalOp.addOp "Car" "KA01" "Bangalore"))
        { username := "prateek", location := "Bangalore" } "Car" "Bangalore").2 bid).2
        bid).1 = true ∧
      v ∈ getVehicles (returnVehicle (rentVehicle (createBooking (applyOp initState
        (RentalOp.addOp "Car" "KA01" "Bangalore"))
        { username := "prateek", location := "Bangalore" } "Car" "Bangalore").2 bid).2
        bid).2 "Bangalore" ∧
      v.vehicleisavailable = true ∧
      ∃ bfin, findBooking (returnVehicle (rentVehicle (createBooking (applyOp initState
        (RentalOp.addOp "Car" "KA01" "Bangalore"))
        { username := "prateek", location := "Bangalore" } "Car" "Bangalore").2 bid).2
        bid).2.booking_records bid = some bfin ∧
        bfin.status = BookingStatus.COMPLETED :=
  c5_book_rent_return.1 (applyOp initState (RentalOp.addOp "Car" "KA01" "Bangalore"))
    (ReachU.step _ _ ReachU.init (by unfold GoodOp; decide))
    { username := "prateek", location := "Bangalore" } "Car" "Bangalore"
    ⟨(⟨"Car", "KA01", "Bangalore", true⟩ : Vehicle), by decide, rfl, rfl⟩

end CarRental
